import Mathlib

/-!
# Banner service: read-through resolver and deletion batcher

A shallow embedding of `internal/banner/repository.go` and
`internal/banner/service.go`.  Effects on the cache (redis), on the relational
store and on the Go runtime are made explicit: every operation threads a world
state and records the calls it makes, so that frame properties ("no cache
write on this path") can be stated on the recorded calls.
-/

namespace banner

/-! ## Shared data -/

/-- Go `error` values the code tells apart: the redis miss sentinel
`redis.Nil`, the not-found sentinel `sql.ErrNoRows`, and every other error. -/
inductive GoError where
  | redisNil
  | sqlErrNoRows
  | other (msg : String)
  deriving DecidableEq, Repr

/-- A `[]byte` value. -/
abbrev Bytes := List Nat

/-- Modelled from the spec: the generated `Banner` type is not under src; the
spec gives a banner's content as three mandatory string fields. -/
structure Banner where
  title : String
  text : String
  url : String
  deriving DecidableEq, Repr

/-- Modelled from the spec: the generated `GetUserBannerParams` type is not
under src; these are the three fields `GetActiveBannerByFeatureTag` reads, the
bypass switch being a nil-able `*bool`. -/
structure GetUserBannerParams where
  FeatureId : Int
  TagId : Int
  UseLastRevision : Option Bool
  deriving DecidableEq, Repr

/-! ## repository.go: GetActiveBannerByFeatureTag -/

/-- A call made on an external collaborator. -/
inductive Call where
  | rdbGet (key : String)
  | rdbSet (key : String) (value : Bytes) (ttl : Nat)
  | dbGetActive (featureID tagID : Int)
  deriving DecidableEq, Repr

/-- Is the call a `r.rdb.Get`? -/
def Call.isCacheGet : Call → Bool
  | .rdbGet _ => true
  | _ => false

/-- Is the call a `r.rdb.Set`? -/
def Call.isCacheSet : Call → Bool
  | .rdbSet _ _ _ => true
  | _ => false

/-- Is the call a `r.queries.GetActiveBannerByFeatureTag`? -/
def Call.isStoreRead : Call → Bool
  | .dbGetActive _ _ => true
  | _ => false

/-- The collaborators of `repository`, over a world state `σ`:
`r.rdb.Get(ctx, key).Bytes()`, `r.rdb.Set(ctx, key, buf, ttl).Err()`,
`r.queries.GetActiveBannerByFeatureTag`, the two `encoding/json` functions and
`r.config.CacheExpiration`. -/
structure Deps (σ : Type) where
  rdbGet : σ → String → Except GoError Bytes × σ
  rdbSet : σ → String → Bytes → Nat → Option GoError × σ
  dbGetActive : σ → Int → Int → Except GoError Banner × σ
  jsonMarshal : Banner → Bytes
  jsonUnmarshal : Bytes → Except GoError Banner
  CacheExpiration : Nat

/-- What one repository call produced: the returned `(*Banner, error)` pair,
the calls made on the collaborators in order, and the world afterwards. -/
structure Outcome (σ : Type) where
  result : Except GoError Banner
  trace : List Call
  world : σ

/-- The key `fmt.Sprintf("feature_id:%d-tag_id:%d", FeatureId, TagId)`. -/
def cacheKey (featureId tagId : Int) : String :=
  "feature_id:" ++ toString featureId ++ "-tag_id:" ++ toString tagId

/-- Lines 68-82 of repository.go: the guarded cache lookup.  The first
component is `some res` when the block returns `res`, and `none` when control
falls through to the store read. -/
def cacheLookup {σ : Type} (r : Deps σ) (s : σ) (params : GetUserBannerParams)
    (key : String) : Option (Except GoError Banner) × List Call × σ :=
  match params.UseLastRevision with
  | some false =>
    match r.rdbGet s key with
    | (.error err, s1) =>
      if err ≠ GoError.redisNil then (some (.error err), [Call.rdbGet key], s1)
      else (none, [Call.rdbGet key], s1)
    | (.ok data, s1) =>
      match r.jsonUnmarshal data with
      | .error err => (some (.error err), [Call.rdbGet key], s1)
      | .ok b => (some (.ok b), [Call.rdbGet key], s1)
  | _ => (none, [], s)

/-- The function `repository.GetActiveBannerByFeatureTag` (repository.go
65-101). -/
def GetActiveBannerByFeatureTag {σ : Type} (r : Deps σ) (s : σ)
    (params : GetUserBannerParams) : Outcome σ :=
  let key := cacheKey params.FeatureId params.TagId
  match cacheLookup r s params key with
  | (some res, tr, s1) => ⟨res, tr, s1⟩
  | (none, tr, s1) =>
    match r.dbGetActive s1 params.FeatureId params.TagId with
    | (.error err, s2) =>
      ⟨.error err, tr ++ [Call.dbGetActive params.FeatureId params.TagId], s2⟩
    | (.ok b, s2) =>
      let buf := r.jsonMarshal b
      match r.rdbSet s2 key buf r.CacheExpiration with
      | (some err, s3) =>
        ⟨.error err, tr ++ [Call.dbGetActive params.FeatureId params.TagId,
          Call.rdbSet key buf r.CacheExpiration], s3⟩
      | (none, s3) =>
        ⟨.ok b, tr ++ [Call.dbGetActive params.FeatureId params.TagId,
          Call.rdbSet key buf r.CacheExpiration], s3⟩

/-! ## service.go: the deletion batcher -/

/-- The value of an unrecovered Go panic. -/
structure GoPanic where
  msg : String
  deriving DecidableEq, Repr

/-- The field of `config.Config` the batcher's transitions read.
`ShutdownTimeout` is a real-time bound and enters `Stop` as the outcome of its
final `select` instead. -/
structure Config where
  BannerBufferLength : Int
  deriving DecidableEq, Repr

/-- A Go `[]int`: its elements and its capacity. -/
structure Slice where
  elems : List Int
  cap : Nat
  deriving DecidableEq, Repr

/-- The allocation `make([]int, 0, n)`, which panics on a negative `n`. -/
def makeSlice (n : Int) : Except GoPanic Slice :=
  if n < 0 then .error ⟨"makeslice: cap out of range"⟩ else .ok ⟨[], n.toNat⟩

/-- The builtin `append(ids, id)`.  While there is room the capacity is kept;
otherwise the runtime reallocates, `growslice` giving the capacity it picks
(never less than the new length). -/
def Slice.append (growslice : Nat → Nat) (s : Slice) (x : Int) : Slice :=
  if s.elems.length < s.cap then ⟨s.elems ++ [x], s.cap⟩
  else ⟨s.elems ++ [x], max (growslice s.cap) (s.elems.length + 1)⟩

/-- The full slice expression `ids[:0:n]`, which panics unless
`0 ≤ n ≤ cap(ids)`. -/
def Slice.resetTo (s : Slice) (n : Int) : Except GoPanic Slice :=
  if n < 0 ∨ (s.cap : Int) < n then .error ⟨"slice bounds out of range"⟩
  else .ok ⟨[], n.toNat⟩

/-- The builtin `close(ch)` on a channel that carries no values, the channel
being represented by whether it is closed. -/
def closeChan (closed : Bool) : Except GoPanic Bool :=
  if closed then .error ⟨"close of closed channel"⟩ else .ok true

/-- The state of one function value returned by `sync.OnceFunc`: whether the
wrapped function has run, and the panic it raised if it did. -/
structure OnceFunc where
  ran : Bool
  panicValue : Option GoPanic
  deriving DecidableEq, Repr

/-- The constructor `sync.OnceFunc(f)`: a fresh value whose `f` has not run. -/
def OnceFunc.new : OnceFunc := ⟨false, none⟩

/-- Calling the function returned by `sync.OnceFunc(f)`: `f` runs on the first
call only; if it panicked, every call panics with the same value. -/
def OnceFunc.call {α : Type} (o : OnceFunc) (f : α → Except GoPanic α) (a : α) :
    Except GoPanic α × OnceFunc :=
  if o.ran then
    match o.panicValue with
    | some p => (.error p, o)
    | none => (.ok a, o)
  else
    match f a with
    | .ok a1 => (.ok a1, ⟨true, none⟩)
    | .error p => (.error p, ⟨true, some p⟩)

/-- The dynamic state of a `*BannerService` together with its background
goroutine `flushDelete`. -/
structure BannerService where
  /-- ids buffered in `s.deleteChan`, oldest first -/
  deleteChan : List Int
  /-- whether `s.done` is closed -/
  done : Bool
  /-- the local slice `ids` of `flushDelete` -/
  ids : Slice
  /-- whether `flushDelete` has returned (and `wg.Done` has run) -/
  exited : Bool
  /-- the panic that killed the process, if any -/
  crashed : Option GoPanic
  /-- the arguments of the `repo.DeleteBannersByID` calls so far, oldest first -/
  deleted : List (List Int)
  deriving DecidableEq, Repr

/-- The constructor `NewService` with a non-nil config (service.go 33-54):
`make(chan int, n)` panics on a negative `n`; otherwise the goroutine starts
`flushDelete`, which allocates `ids` (line 100). -/
def NewService (config : Config) : Except GoPanic BannerService :=
  if config.BannerBufferLength < 0 then .error ⟨"makechan: size out of range"⟩
  else
    match makeSlice config.BannerBufferLength with
    | .error p => .error p
    | .ok ids => .ok ⟨[], false, ids, false, none, []⟩

/-- Lines 80-82 of `Stop`: `sync.OnceFunc(func() { close(s.done) })()`.  The
`OnceFunc` value is built anew by each call of `Stop`. -/
def signalShutdown (s : BannerService) : Except GoPanic BannerService :=
  (OnceFunc.new.call
    (fun sv : BannerService =>
      match closeChan sv.done with
      | .ok d => .ok { sv with done := d }
      | .error p => .error p) s).1

/-- How a call of `Stop` that did not panic ended: `ready` was closed first
(line 93) or the timeout fired first and was logged (line 91). -/
inductive StopOutcome where
  | ready
  | timeout
  deriving DecidableEq, Repr

/-- A `Stop()` call (service.go 79-96).  `readyFirst` tells which case of the
final `select` fires.  An unrecovered panic kills the process. -/
def Stop (s : BannerService) (readyFirst : Bool) :
    Except GoPanic StopOutcome × BannerService :=
  match signalShutdown s with
  | .error p => (.error p, { s with crashed := some p })
  | .ok s1 => (.ok (if readyFirst then StopOutcome.ready else StopOutcome.timeout), s1)

/-- A call `s.flush(bannerIDs...)` (service.go 127-138): `repoErr` is what
`repo.DeleteBannersByID` returns if it is called; the second component is the
log of its calls. -/
def flush (deleted : List (List Int)) (bannerIDs : List Int)
    (repoErr : Option GoError) : Option GoError × List (List Int) :=
  if bannerIDs.length = 0 then (none, deleted)
  else
    match repoErr with
    | some err => (some err, deleted ++ [bannerIDs])
    | none => (none, deleted ++ [bannerIDs])

/-- The atomic steps of the batcher and its clients. -/
inductive Event where
  /-- a send `s.deleteChan <- id` of `DeleteBanner` (line 400) completes -/
  | enqueue (id : Int)
  /-- a `Stop()` call executes its shutdown signal (lines 80-82) -/
  | stop
  /-- `select` takes `case id := <-s.deleteChan` (line 104) -/
  | deliver
  /-- `select` takes `case <-s.done` (line 107); `repoErr` is what
  `DeleteBannersByID` returns if the final flush calls it -/
  | shutdown (repoErr : Option GoError)
  /-- `select` takes `case <-ticker.C` (line 114); `repoErr` is what
  `DeleteBannersByID` returns if the tick calls it -/
  | tick (repoErr : Option GoError)
  deriving DecidableEq, Repr

/-- One step of the system; `none` when the event cannot happen in the state.
A send completes when the channel buffer has room, or, on an unbuffered
channel (which never holds an id), by handing the id to the receiving
`select` directly. -/
def step (config : Config) (growslice : Nat → Nat) (s : BannerService) :
    Event → Option BannerService
  | .enqueue id =>
    if s.crashed.isSome then none
    else if s.deleteChan.length < config.BannerBufferLength.toNat then
      some { s with deleteChan := s.deleteChan ++ [id] }
    else if config.BannerBufferLength.toNat = 0 ∧ s.deleteChan.length = 0 ∧ s.exited = false then
      some { s with ids := s.ids.append growslice id }
    else none
  | .stop =>
    if s.crashed.isSome then none
    else
      match signalShutdown s with
      | .ok s1 => some s1
      | .error p => some { s with crashed := some p }
  | .deliver =>
    if s.crashed.isSome ∨ s.exited then none
    else
      match s.deleteChan with
      | [] => none
      | id :: rest => some { s with deleteChan := rest, ids := s.ids.append growslice id }
  | .shutdown repoErr =>
    if s.crashed.isSome ∨ s.exited ∨ s.done = false then none
    else if s.ids.elems.length = 0 then some { s with exited := true }
    else some { s with deleted := (flush s.deleted s.ids.elems repoErr).2, exited := true }
  | .tick repoErr =>
    if s.crashed.isSome ∨ s.exited then none
    else if s.ids.elems.length = 0 then some s
    else
      match flush s.deleted s.ids.elems repoErr with
      | (some _, log) => some { s with deleted := log }
      | (none, log) =>
        match s.ids.resetTo config.BannerBufferLength with
        | .ok ids1 => some { s with deleted := log, ids := ids1 }
        | .error p => some { s with deleted := log, crashed := some p }

/-- Running a sequence of events; `none` as soon as one cannot happen. -/
def run (config : Config) (growslice : Nat → Nat) :
    BannerService → List Event → Option BannerService
  | s, [] => some s
  | s, e :: es =>
    match step config growslice s e with
    | none => none
    | some s1 => run config growslice s1 es

/-- The ids whose sends are in a sequence of events, in order. -/
def accepted : List Event → List Int
  | [] => []
  | .enqueue id :: es => id :: accepted es
  | _ :: es => accepted es

/-! ## A cache that is a plain map -/

/-- A CacheStore that behaves as a key-to-bytes map and never expires an
entry: the world is the map, `Get` on an absent key is the miss `redis.Nil`,
`Set` always succeeds, and the RelationalStore is the fixed table `store`. -/
def mapDeps (store : Int → Int → Except GoError Banner) (jsonMarshal : Banner → Bytes)
    (jsonUnmarshal : Bytes → Except GoError Banner) (ttl : Nat) :
    Deps (String → Option Bytes) where
  rdbGet := fun m key =>
    match m key with
    | some v => (.ok v, m)
    | none => (.error GoError.redisNil, m)
  rdbSet := fun m key v _ => (none, fun k => if k = key then some v else m k)
  dbGetActive := fun m f t => (store f t, m)
  jsonMarshal := jsonMarshal
  jsonUnmarshal := jsonUnmarshal
  CacheExpiration := ttl

/-- A banner as cached earlier. -/
def oldBanner : Banner := ⟨"old", "text", "url"⟩

/-- The banner the store holds now. -/
def newBanner : Banner := ⟨"new", "text", "url"⟩

/-- A small serializer for the two sample banners. -/
def sampleMarshal (b : Banner) : Bytes :=
  if b.title = "old" then [0] else [1]

/-- The matching deserializer. -/
def sampleUnmarshal : Bytes → Except GoError Banner
  | [0] => .ok oldBanner
  | [1] => .ok newBanner
  | _ => .error (GoError.other "invalid character")

/-- Sample collaborators: the store holds `newBanner` for every pair, the
cache is a map, entries live 300 seconds. -/
def sampleDeps : Deps (String → Option Bytes) :=
  mapDeps (fun _ _ => .ok newBanner) sampleMarshal sampleUnmarshal 300

/-- A cache that holds the serialized `oldBanner` under every key. -/
def warmCache : String → Option Bytes := fun _ => some [0]

/-- A cache without entries. -/
def coldCache : String → Option Bytes := fun _ => none

/-- Sample collaborators whose cache backend is down: every `Get` and `Set`
fails with a connection error; the store holds `newBanner`. -/
def brokenCacheDeps : Deps Unit where
  rdbGet := fun _ _ => (.error (GoError.other "connection refused"), ())
  rdbSet := fun _ _ _ _ => (some (GoError.other "connection refused"), ())
  dbGetActive := fun _ _ _ => (.ok newBanner, ())
  jsonMarshal := sampleMarshal
  jsonUnmarshal := sampleUnmarshal
  CacheExpiration := 300

/-- Sample collaborators whose store has no active banner for any pair. -/
def emptyStoreDeps : Deps (String → Option Bytes) :=
  mapDeps (fun _ _ => .error GoError.sqlErrNoRows) sampleMarshal sampleUnmarshal 300

/-- Is the event a completed send or a delivery to the accumulation buffer
(hence neither a tick nor part of a shutdown)? -/
def Event.isSendOrDeliver : Event → Bool
  | .enqueue _ => true
  | .deliver => true
  | _ => false

/-- A growth policy for `append`: double the capacity. -/
def doubling (c : Nat) : Nat := 2 * c

/-- The default configuration: `defaultBannerBufferLength = 5`. -/
def defaultConfig : Config := ⟨5⟩

/-- The service right after `NewService` under the default configuration. -/
def freshService : BannerService := ⟨[], false, ⟨[], 5⟩, false, none, []⟩

/-! ## Ghost notions for the batcher -/

/-- Rounds of a send, its delivery and a tick whose flush fails. -/
def failingRounds : Nat → List Event
  | 0 => []
  | k + 1 =>
    Event.enqueue 0 :: Event.deliver :: Event.tick (some (GoError.other "deadlock detected"))
      :: failingRounds k

/-- The ids the background task receives from `deleteChan` in one step: what a
send or a delivery adds to its buffer. -/
def stepReceived (config : Config) (growslice : Nat → Nat) (s : BannerService)
    (e : Event) : List Int :=
  match e, step config growslice s e with
  | .enqueue _, some s1 => s1.ids.elems.drop s.ids.elems.length
  | .deliver, some s1 => s1.ids.elems.drop s.ids.elems.length
  | _, _ => []

/-- The ids the background task receives along a run, in order. -/
def received (config : Config) (growslice : Nat → Nat) :
    BannerService → List Event → List Int
  | _, [] => []
  | s, e :: es =>
    match step config growslice s e with
    | none => []
    | some s1 => stepReceived config growslice s e ++ received config growslice s1 es

/-- The sends of the handler `DeleteBanner` for a decoded request body
(service.go 399-401): `for _, id := range ids { s.deleteChan <- id }`. -/
def DeleteBannerSends (ids : List Int) : List Event :=
  ids.map Event.enqueue

/-! ## repository.go: the write paths -/

/-- Modelled from the spec: a row of the banner table; the generated row type
is not under src. -/
structure BannerRow where
  ID : Int
  FeatureID : Int
  Title : String
  Text : String
  Url : String
  IsActive : Bool
  deriving DecidableEq, Repr

/-- Modelled from the spec: a row of the tag-association table (the generated
type of the elements of `currentTags`): its own identity, the banner and the
tag it binds. -/
structure BannerTag where
  ID : Int
  BannerID : Int
  TagID : Int
  deriving DecidableEq, Repr

/-- The committed content of the RelationalStore. -/
structure Store where
  banners : List BannerRow
  tags : List BannerTag
  deriving DecidableEq, Repr

/-- A statement sent to the store, named after the generated query method,
with the fields of its parameter struct as the source fills them. -/
inductive Stmt where
  | CreateBanner (FeatureID : Int) (Title Text Url : String) (IsActive : Bool)
  | CreateTag (TagID BannerID : Int)
  | DeleteBannerByID (id : Int)
  | UpdateBannerByID (Title Text Url : String) (ID : Int)
  | UpdateBannerTagByID (TagID BannerID ID : Int)
  deriving DecidableEq, Repr

/-- Is the statement an overwrite of an association's tag id? -/
def Stmt.isUpdateBannerTag : Stmt → Bool
  | .UpdateBannerTagByID _ _ _ => true
  | _ => false

/-- Is the statement a creation of an association? -/
def Stmt.isCreateTag : Stmt → Bool
  | .CreateTag _ _ => true
  | _ => false

/-- Modelled from the spec: the identity a newly created banner gets (the
generated query is not under src): one more than the largest in use. -/
def nextBannerID (db : Store) : Int :=
  (db.banners.map BannerRow.ID).foldl max 0 + 1

/-- Modelled from the spec: the identity a newly created association gets (the
generated query is not under src): one more than the largest in use. -/
def nextTagRowID (db : Store) : Int :=
  (db.tags.map BannerTag.ID).foldl max 0 + 1

/-- Modelled from the spec: the overwrite of one association row by
`UpdateBannerTagByID` (the generated query is not under src): the row with the
given identity and banner gets the tag id, its identity is kept. -/
def setTag (TagID BannerID ID : Int) (row : BannerTag) : BannerTag :=
  if row.ID = ID ∧ row.BannerID = BannerID then { row with TagID := TagID } else row

/-- Modelled from the spec: the effect of one successful statement on the
store (the generated queries are not under src).  Creation appends a row with
a new identity, overwrites keep row identity, deletion removes the banner
row. -/
def Stmt.apply (db : Store) : Stmt → Store
  | .CreateBanner FeatureID Title Text Url IsActive =>
    { db with banners := db.banners ++ [⟨nextBannerID db, FeatureID, Title, Text, Url, IsActive⟩] }
  | .CreateTag TagID BannerID =>
    { db with tags := db.tags ++ [⟨nextTagRowID db, BannerID, TagID⟩] }
  | .DeleteBannerByID id =>
    { db with banners := db.banners.filter (fun b => b.ID ≠ id) }
  | .UpdateBannerByID Title Text Url ID =>
    { db with banners := db.banners.map (fun b =>
        if b.ID = ID then { b with Title := Title, Text := Text, Url := Url } else b) }
  | .UpdateBannerTagByID TagID BannerID ID =>
    { db with tags := db.tags.map (setTag TagID BannerID ID) }

/-- Modelled from the spec: the query `GetTagsByBannerID` (not under src): the
banner's associations, in table order. -/
def GetTagsByBannerID (db : Store) (id : Int) : List BannerTag :=
  db.tags.filter (fun row => row.BannerID = id)

/-- What a write path of the repository produced: the returned error, the
committed store afterwards, and the statements sent, in order (a statement
that failed included). -/
structure WriteOutcome where
  err : Option GoError
  committed : Store
  issued : List Stmt
  deriving DecidableEq, Repr

/-- Sending statements through `qtx` one after another, as the loops of the
write paths do, returning at the first error.  `faults n` is the error of the
`n`-th store operation of the call, if it fails; `ops` counts the operations
made so far; `work` is the view of the open transaction.  The result is the
error, the view, the operation count and the statements sent. -/
def execAll (faults : Nat → Option GoError) :
    Nat → Store → List Stmt → Option GoError × Store × Nat × List Stmt
  | ops, work, [] => (none, work, ops, [])
  | ops, work, st :: rest =>
    match faults ops with
    | some err => (some err, work, ops + 1, [st])
    | none =>
      match execAll faults (ops + 1) (st.apply work) rest with
      | (err, work1, ops1, sent) => (err, work1, ops1, st :: sent)

/-- The statements of the `switch` of `UpdateBannerTagByID` (repository.go
721-778), in the order its loops send them. -/
def reconcileStmts (currentTags : List BannerTag) (id : Int) (tags : List Int) : List Stmt :=
  let unusedTagID : Int := -1
  if currentTags.length = tags.length then
    (List.range tags.length).map (fun i =>
      Stmt.UpdateBannerTagByID (tags.getD i 0) id (currentTags.getD i ⟨0, 0, 0⟩).ID)
  else if currentTags.length < tags.length then
    (List.range tags.length).map (fun i =>
      if i < currentTags.length then
        Stmt.UpdateBannerTagByID (tags.getD i 0) id (currentTags.getD i ⟨0, 0, 0⟩).ID
      else Stmt.CreateTag (tags.getD i 0) id)
  else
    (List.range currentTags.length).map (fun i =>
      if i < tags.length then
        Stmt.UpdateBannerTagByID (tags.getD i 0) id (currentTags.getD i ⟨0, 0, 0⟩).ID
      else Stmt.UpdateBannerTagByID unusedTagID id (currentTags.getD i ⟨0, 0, 0⟩).ID)

/-- The function `repository.UpdateBannerTagByID` (repository.go 701-785).
Operation 0 is `r.db.Begin()`, operation 1 is `qtx.GetTagsByBannerID`, then
come the statements of the `switch`, then `tx.Commit()`.  Every return before
a successful commit leaves the deferred `tx.Rollback()` to discard the
transaction. -/
def UpdateBannerTagByID (faults : Nat → Option GoError) (db : Store) (id : Int)
    (tags : List Int) : WriteOutcome :=
  match faults 0 with
  | some err => ⟨some err, db, []⟩
  | none =>
    match faults 1 with
    | some err => ⟨some err, db, []⟩
    | none =>
      let currentTags := GetTagsByBannerID db id
      match execAll faults 2 db (reconcileStmts currentTags id tags) with
      | (some err, _, _, sent) => ⟨some err, db, sent⟩
      | (none, work, ops, sent) =>
        match faults ops with
        | some err => ⟨some err, db, sent⟩
        | none => ⟨none, work, sent⟩

/-- The function `repository.DeleteBannersByID` (repository.go 626-650).
Operation 0 is `r.db.Begin()`, then one `qtx.DeleteBannerByID` per id, then
`tx.Commit()`. -/
def DeleteBannersByID (faults : Nat → Option GoError) (db : Store) (ids : List Int) :
    WriteOutcome :=
  match faults 0 with
  | some err => ⟨some err, db, []⟩
  | none =>
    match execAll faults 1 db (ids.map Stmt.DeleteBannerByID) with
    | (some err, _, _, sent) => ⟨some err, db, sent⟩
    | (none, work, ops, sent) =>
      match faults ops with
      | some err => ⟨some err, db, sent⟩
      | none => ⟨none, work, sent⟩

/-- No store operation fails. -/
def noFaults : Nat → Option GoError := fun _ => none

/-- Only the store operation number `k` fails. -/
def faultAt (k : Nat) : Nat → Option GoError :=
  fun n => if n = k then some (GoError.other "deadlock detected") else none

/-- A store in which banner 7 has associations for tags 1, 2, 3 and banner 8
has one for tag 5. -/
def sampleStore : Store :=
  ⟨[⟨7, 1, "t", "x", "u", true⟩, ⟨8, 1, "t", "x", "u", true⟩],
    [⟨10, 7, 1⟩, ⟨11, 8, 5⟩, ⟨12, 7, 2⟩, ⟨13, 7, 3⟩]⟩

/-- An association row after the overwrites that pair the rows `cur` with the
tag ids `vals`, all for banner `id`, applied in order. -/
def overwriteRows (id : Int) : List BannerTag → List Int → BannerTag → BannerTag
  | c :: cs, v :: vs, row => overwriteRows id cs vs (setTag v id c.ID row)
  | _, _, row => row

/-! ## repository.go: content validation -/

/-- The struct `InvalidTypeError` (errors.go). -/
structure InvalidTypeError where
  ParamName : String
  deriving DecidableEq, Repr

/-- The method `(*InvalidTypeError).Error` (errors.go 9-11). -/
def InvalidTypeError.Error (e : InvalidTypeError) : String :=
  "invalid type for parameter: " ++ e.ParamName

/-- An `error` returned by `CreateBanner` or `UpdateBannerByID`: an
`*InvalidTypeError` built by the function itself, or an error of the store
passed on unchanged. -/
inductive WriteError where
  | invalidType (e : InvalidTypeError)
  | store (err : GoError)
  deriving DecidableEq, Repr

/-- A value of `interface{}` as `encoding/json` decodes it: `nil`, a `bool`,
a number (kept as its literal), a `string`, or an array or object (whose
content plays no role here). -/
inductive JsonValue where
  | null
  | bool (b : Bool)
  | number (literal : String)
  | string (s : String)
  | array
  | object
  deriving DecidableEq, Repr

/-- A `map[string]interface{}`: the value under each key, if any. -/
abbrev Content := String → Option JsonValue

/-- The type assertion `banner[field].(string)`: it succeeds only on a present
value whose dynamic type is `string`, and then yields that string. -/
def assertString : Option JsonValue → Option String
  | some (.string s) => some s
  | _ => none

/-- The loop over `fields` (repository.go 582-588 and 656-662): each field is
asserted to be a string and stored in `vals`; the first failure returns
`&InvalidTypeError{field}`. -/
def collectStrings (banner : Content) :
    List String → List (String × String) → Except InvalidTypeError (List (String × String))
  | [], vals => .ok vals
  | field :: rest, vals =>
    match assertString (banner field) with
    | none => .error ⟨field⟩
    | some val => collectStrings banner rest (vals ++ [(field, val)])

/-- The index expression `vals[key]` on a `map[string]string`: the zero value
`""` when the key is absent. -/
def valsGet (vals : List (String × String)) (key : String) : String :=
  (vals.lookup key).getD ""

/-- Modelled from the spec: the generated request body `PostBannerJSONBody` is
not under src; these are the four fields `CreateBanner` dereferences (the
handler has checked them to be non-nil). -/
structure PostBannerJSONBody where
  Content : Content
  FeatureId : Int
  IsActive : Bool
  TagIds : List Int

/-- What `CreateBanner` produced: the returned `(*PostBannerResponse, error)`
pair (the response being the new banner id), the committed store and the
statements sent. -/
structure CreateOutcome where
  result : Except WriteError Int
  committed : Store
  issued : List Stmt

/-- What `UpdateBannerByID` produced: the returned error, the store and the
statements sent. -/
structure UpdateOutcome where
  err : Option WriteError
  committed : Store
  issued : List Stmt

/-- The function `repository.CreateBanner` (repository.go 565-616).  Operation
0 is `r.db.Begin()`, operation 1 is `qtx.CreateBanner`, then one `qtx.CreateTag`
per tag id, then `tx.Commit()`. -/
def CreateBanner (faults : Nat → Option GoError) (db : Store) (data : PostBannerJSONBody) :
    CreateOutcome :=
  match faults 0 with
  | some err => ⟨.error (.store err), db, []⟩
  | none =>
    match collectStrings data.Content ["title", "text", "url"] [] with
    | .error e => ⟨.error (.invalidType e), db, []⟩
    | .ok vals =>
      let st := Stmt.CreateBanner data.FeatureId (valsGet vals "title") (valsGet vals "text")
        (valsGet vals "url") data.IsActive
      match faults 1 with
      | some err => ⟨.error (.store err), db, [st]⟩
      | none =>
        let id := nextBannerID db
        match execAll faults 2 (st.apply db)
            (data.TagIds.map (fun tagID => Stmt.CreateTag tagID id)) with
        | (some err, _, _, sent) => ⟨.error (.store err), db, st :: sent⟩
        | (none, work, ops, sent) =>
          match faults ops with
          | some err => ⟨.error (.store err), db, st :: sent⟩
          | none => ⟨.ok id, work, st :: sent⟩

/-- The function `repository.UpdateBannerByID` (repository.go 652-675).  Its
one store operation, number 0, is `r.queries.UpdateBannerByID`, outside any
transaction. -/
def UpdateBannerByID (faults : Nat → Option GoError) (db : Store) (id : Int)
    (data : Content) : UpdateOutcome :=
  match collectStrings data ["title", "text", "url"] [] with
  | .error e => ⟨some (.invalidType e), db, []⟩
  | .ok vals =>
    let st := Stmt.UpdateBannerByID (valsGet vals "title") (valsGet vals "text")
      (valsGet vals "url") id
    match faults 0 with
    | some err => ⟨some (.store err), db, [st]⟩
    | none => ⟨none, st.apply db, [st]⟩

/-- In the words of the claim: the first of the fields title, text, url, in
that order, that is absent from the content or is not a string, if any. -/
def firstInvalidField (content : Content) : Option String :=
  ["title", "text", "url"].find? (fun field =>
    match content field with
    | some (.string _) => false
    | _ => true)

/-- A content whose title is a number and whose url is missing. -/
def badContent : Content := fun key =>
  if key = "title" then some (JsonValue.number "42")
  else if key = "text" then some (JsonValue.string "hello")
  else none

/-- A content with the three string fields. -/
def goodContent : Content := fun key =>
  if key = "title" then some (JsonValue.string "sale")
  else if key = "text" then some (JsonValue.string "hello")
  else if key = "url" then some (JsonValue.string "https://example.com")
  else none

end banner

/-! # Theorems -/

namespace banner

/-! ## The read-through resolver -/

/-- Any switch other than an explicit `false` takes the same path as `true`. -/
lemma get_of_ne_false {σ : Type} (r : Deps σ) (s : σ) (f t : Int) (ulr : Option Bool)
    (h : ulr ≠ some false) :
    GetActiveBannerByFeatureTag r s ⟨f, t, ulr⟩
      = GetActiveBannerByFeatureTag r s ⟨f, t, some true⟩ := by
  cases ulr with
  | none => rfl
  | some v =>
    cases v with
    | true => rfl
    | false => exact absurd rfl h

/-- The path without cache lookup, when the store read fails. -/
lemma get_bypass_store_error {σ : Type} (r : Deps σ) (s s2 : σ) (f t : Int) (e : GoError)
    (hdb : r.dbGetActive s f t = (.error e, s2)) :
    GetActiveBannerByFeatureTag r s ⟨f, t, some true⟩
      = ⟨.error e, [Call.dbGetActive f t], s2⟩ := by
  simp [GetActiveBannerByFeatureTag, cacheLookup, hdb]

/-- The path without cache lookup, when the store read succeeds. -/
lemma get_bypass_store_ok {σ : Type} (r : Deps σ) (s s2 : σ) (f t : Int) (b : Banner)
    (hdb : r.dbGetActive s f t = (.ok b, s2)) :
    GetActiveBannerByFeatureTag r s ⟨f, t, some true⟩
      = ⟨(match (r.rdbSet s2 (cacheKey f t) (r.jsonMarshal b) r.CacheExpiration).1 with
            | some err => .error err
            | none => .ok b),
          [Call.dbGetActive f t,
            Call.rdbSet (cacheKey f t) (r.jsonMarshal b) r.CacheExpiration],
          (r.rdbSet s2 (cacheKey f t) (r.jsonMarshal b) r.CacheExpiration).2⟩ := by
  simp only [GetActiveBannerByFeatureTag, cacheLookup, hdb]
  rcases hset : r.rdbSet s2 (cacheKey f t) (r.jsonMarshal b) r.CacheExpiration with ⟨res, s3⟩
  cases res <;> simp

/-- After a miss the call continues exactly as the path without lookup does,
from the world the lookup left. -/
lemma get_miss {σ : Type} (r : Deps σ) (s s1 : σ) (f t : Int)
    (hget : r.rdbGet s (cacheKey f t) = (.error GoError.redisNil, s1)) :
    GetActiveBannerByFeatureTag r s ⟨f, t, some false⟩
      = ⟨(GetActiveBannerByFeatureTag r s1 ⟨f, t, some true⟩).result,
          Call.rdbGet (cacheKey f t)
            :: (GetActiveBannerByFeatureTag r s1 ⟨f, t, some true⟩).trace,
          (GetActiveBannerByFeatureTag r s1 ⟨f, t, some true⟩).world⟩ := by
  rcases hdb : r.dbGetActive s1 f t with ⟨res, s2⟩
  cases res with
  | error e => simp [GetActiveBannerByFeatureTag, cacheLookup, hget, hdb]
  | ok b =>
    rcases hset : r.rdbSet s2 (cacheKey f t) (r.jsonMarshal b) r.CacheExpiration with ⟨res, s3⟩
    cases res <;> simp [GetActiveBannerByFeatureTag, cacheLookup, hget, hdb, hset]

/-- The lookup returns whenever `Get` answers with bytes or with an error that
is not the miss. -/
lemma get_lookup_returns {σ : Type} (r : Deps σ) (s s1 : σ) (f t : Int)
    (res : Except GoError Bytes) (hget : r.rdbGet s (cacheKey f t) = (res, s1))
    (hres : res ≠ .error GoError.redisNil) :
    GetActiveBannerByFeatureTag r s ⟨f, t, some false⟩
      = ⟨Except.bind res r.jsonUnmarshal, [Call.rdbGet (cacheKey f t)], s1⟩ := by
  simp only [GetActiveBannerByFeatureTag, cacheLookup, hget]
  cases res with
  | error e =>
    have he : e ≠ GoError.redisNil := fun h => hres (by rw [h])
    simp [he, Except.bind]
  | ok data =>
    dsimp only [Except.bind]
    cases r.jsonUnmarshal data <;> simp

/-- The path without lookup reads the store exactly once. -/
lemma get_bypass_reads_once {σ : Type} (r : Deps σ) (s : σ) (f t : Int) :
    (GetActiveBannerByFeatureTag r s ⟨f, t, some true⟩).trace.countP Call.isStoreRead = 1 := by
  rcases hdb : r.dbGetActive s f t with ⟨res, s2⟩
  cases res with
  | error e => rw [get_bypass_store_error r s s2 f t e hdb]; rfl
  | ok b => rw [get_bypass_store_ok r s s2 f t b hdb]; rfl

/-- No call reads the store more than once. -/
lemma get_reads_at_most_once {σ : Type} (r : Deps σ) (s : σ) (f t : Int) (ulr : Option Bool) :
    (GetActiveBannerByFeatureTag r s ⟨f, t, ulr⟩).trace.countP Call.isStoreRead ≤ 1 := by
  by_cases hu : ulr = some false
  · subst hu
    rcases hget : r.rdbGet s (cacheKey f t) with ⟨res, s1⟩
    by_cases hres : res = .error GoError.redisNil
    · subst hres
      rw [get_miss r s s1 f t hget]
      have h1 := get_bypass_reads_once r s1 f t
      simp [List.countP_cons, Call.isStoreRead, h1]
    · rw [get_lookup_returns r s s1 f t res hget hres]
      simp [List.countP_cons, Call.isStoreRead]
  · rw [get_of_ne_false r s f t ulr hu, get_bypass_reads_once r s f t]

/-- C2 (claim as stated fails): with the bypass switch true and a store that
returns a banner, the call does write to the cache: its calls are the store
read followed by a `Set` of the serialized banner. -/
theorem bypass_writes_cache_example :
    (GetActiveBannerByFeatureTag sampleDeps coldCache ⟨1, 2, some true⟩).trace
        = [Call.dbGetActive 1 2, Call.rdbSet (cacheKey 1 2) [1] 300]
      ∧ ((GetActiveBannerByFeatureTag sampleDeps coldCache ⟨1, 2, some true⟩).trace.countP
          Call.isCacheSet) = 1 := by
  constructor <;> rfl

/-- C2 (amended): with the bypass switch true the call makes no cache `Get`;
its calls are exactly one store read, followed by exactly one cache `Set` of
the serialized banner under the composite key when the store returned a
banner, and by nothing when the store read failed. -/
theorem bypass_trace {σ : Type} (r : Deps σ) (s : σ) (f t : Int) :
    (GetActiveBannerByFeatureTag r s ⟨f, t, some true⟩).trace
        = Call.dbGetActive f t ::
          (match (r.dbGetActive s f t).1 with
            | .error _ => []
            | .ok b => [Call.rdbSet (cacheKey f t) (r.jsonMarshal b) r.CacheExpiration])
      ∧ (GetActiveBannerByFeatureTag r s ⟨f, t, some true⟩).trace.countP Call.isCacheGet = 0 := by
  simp only [GetActiveBannerByFeatureTag, cacheLookup]
  rcases hdb : r.dbGetActive s f t with ⟨res, s2⟩
  cases res with
  | error e => simp [Call.isCacheGet]
  | ok b =>
    dsimp only
    rcases hset : r.rdbSet s2 (cacheKey f t) (r.jsonMarshal b) r.CacheExpiration with ⟨res, s3⟩
    cases res <;> simp [Call.isCacheGet]

/-- C3 (claim as stated fails): with a cached entry for the key and a newer
banner in the store, a call with the switch absent does not look the key up
and returns the store's banner, while the same call with the switch `false`
returns the cached banner without reading the store. -/
theorem absent_switch_differs_from_false_example :
    (GetActiveBannerByFeatureTag sampleDeps warmCache ⟨1, 2, none⟩).result = .ok newBanner
      ∧ (GetActiveBannerByFeatureTag sampleDeps warmCache ⟨1, 2, none⟩).trace
          = [Call.dbGetActive 1 2, Call.rdbSet (cacheKey 1 2) [1] 300]
      ∧ (GetActiveBannerByFeatureTag sampleDeps warmCache ⟨1, 2, some false⟩).result
          = .ok oldBanner
      ∧ (GetActiveBannerByFeatureTag sampleDeps warmCache ⟨1, 2, some false⟩).trace
          = [Call.rdbGet (cacheKey 1 2)] := by
  refine ⟨rfl, rfl, rfl, rfl⟩

/-- C3 (amended): a call whose switch is absent behaves exactly like the same
call with the switch `true`: same result, same calls, same world; it makes no
cache `Get` and reads the store once. -/
theorem absent_switch_is_bypass {σ : Type} (r : Deps σ) (s : σ) (f t : Int) :
    GetActiveBannerByFeatureTag r s ⟨f, t, none⟩
        = GetActiveBannerByFeatureTag r s ⟨f, t, some true⟩
      ∧ (GetActiveBannerByFeatureTag r s ⟨f, t, none⟩).trace.countP Call.isCacheGet = 0
      ∧ (GetActiveBannerByFeatureTag r s ⟨f, t, none⟩).trace.countP Call.isStoreRead = 1 := by
  have heq := get_of_ne_false r s f t none (by simp)
  refine ⟨heq, ?_, ?_⟩
  · rw [heq]
    rcases hdb : r.dbGetActive s f t with ⟨res, s2⟩
    cases res with
    | error e => rw [get_bypass_store_error r s s2 f t e hdb]; rfl
    | ok b => rw [get_bypass_store_ok r s s2 f t b hdb]; rfl
  · rw [heq]; exact get_bypass_reads_once r s f t

/-- C4: with the switch `false`, when `Get` returns bytes that deserialize to a
banner `b`, the call returns `b` without error and its only call is that
`Get`: no store read and no cache `Set`. -/
theorem cache_hit {σ : Type} (r : Deps σ) (s s1 : σ) (f t : Int) (data : Bytes) (b : Banner)
    (hget : r.rdbGet s (cacheKey f t) = (.ok data, s1))
    (hjson : r.jsonUnmarshal data = .ok b) :
    (GetActiveBannerByFeatureTag r s ⟨f, t, some false⟩).result = .ok b
      ∧ (GetActiveBannerByFeatureTag r s ⟨f, t, some false⟩).trace
          = [Call.rdbGet (cacheKey f t)]
      ∧ (GetActiveBannerByFeatureTag r s ⟨f, t, some false⟩).trace.countP Call.isStoreRead = 0
      ∧ (GetActiveBannerByFeatureTag r s ⟨f, t, some false⟩).trace.countP Call.isCacheSet = 0 := by
  rw [get_lookup_returns r s s1 f t (.ok data) hget (by simp)]
  exact ⟨hjson, rfl, rfl, rfl⟩

/-- C4 at a concrete input: a warm cache answers with the cached banner. -/
theorem cache_hit_witness :
    (GetActiveBannerByFeatureTag sampleDeps warmCache ⟨1, 2, some false⟩).result = .ok oldBanner
      ∧ (GetActiveBannerByFeatureTag sampleDeps warmCache ⟨1, 2, some false⟩).trace
          = [Call.rdbGet (cacheKey 1 2)]
      ∧ (GetActiveBannerByFeatureTag sampleDeps warmCache ⟨1, 2, some false⟩).trace.countP
          Call.isStoreRead = 0
      ∧ (GetActiveBannerByFeatureTag sampleDeps warmCache ⟨1, 2, some false⟩).trace.countP
          Call.isCacheSet = 0 :=
  cache_hit sampleDeps warmCache warmCache 1 2 [0] oldBanner rfl rfl

/-- C5: with the switch `false`, when `Get` fails with an error other than the
miss `redis.Nil`, the call returns exactly that error and its only call is
that `Get` (no store read, no cache `Set`); when `Get` reports the miss, the
lookup block does not return: the call goes on to read the store once and its
result is the result of that store path. -/
theorem cache_error_fail_closed {σ : Type} (r : Deps σ) (s s1 : σ) (f t : Int) (e : GoError)
    (hget : r.rdbGet s (cacheKey f t) = (.error e, s1)) :
    (e ≠ GoError.redisNil →
        (GetActiveBannerByFeatureTag r s ⟨f, t, some false⟩).result = .error e
        ∧ (GetActiveBannerByFeatureTag r s ⟨f, t, some false⟩).trace
            = [Call.rdbGet (cacheKey f t)]
        ∧ (GetActiveBannerByFeatureTag r s ⟨f, t, some false⟩).trace.countP Call.isStoreRead = 0
        ∧ (GetActiveBannerByFeatureTag r s ⟨f, t, some false⟩).trace.countP Call.isCacheSet = 0)
      ∧ (e = GoError.redisNil →
        (cacheLookup r s ⟨f, t, some false⟩ (cacheKey f t)).1 = none
        ∧ (GetActiveBannerByFeatureTag r s ⟨f, t, some false⟩).result
            = (GetActiveBannerByFeatureTag r s1 ⟨f, t, some true⟩).result
        ∧ (GetActiveBannerByFeatureTag r s ⟨f, t, some false⟩).trace
            = Call.rdbGet (cacheKey f t)
                :: (GetActiveBannerByFeatureTag r s1 ⟨f, t, some true⟩).trace
        ∧ (GetActiveBannerByFeatureTag r s ⟨f, t, some false⟩).trace.countP Call.isStoreRead
            = 1) := by
  constructor
  · intro he
    rw [get_lookup_returns r s s1 f t (.error e) hget (by simpa using he)]
    exact ⟨rfl, rfl, rfl, rfl⟩
  · intro he
    subst he
    refine ⟨by simp [cacheLookup, hget], ?_⟩
    rw [get_miss r s s1 f t hget]
    refine ⟨rfl, rfl, ?_⟩
    have h1 := get_bypass_reads_once r s1 f t
    simpa [List.countP_cons, Call.isStoreRead] using h1

/-- C5 at a concrete input: a refused connection is returned as it is. -/
theorem cache_error_fail_closed_witness :
    (GetActiveBannerByFeatureTag brokenCacheDeps () ⟨1, 2, some false⟩).result
        = .error (GoError.other "connection refused")
      ∧ (GetActiveBannerByFeatureTag brokenCacheDeps () ⟨1, 2, some false⟩).trace
          = [Call.rdbGet (cacheKey 1 2)]
      ∧ (GetActiveBannerByFeatureTag brokenCacheDeps () ⟨1, 2, some false⟩).trace.countP
          Call.isStoreRead = 0
      ∧ (GetActiveBannerByFeatureTag brokenCacheDeps () ⟨1, 2, some false⟩).trace.countP
          Call.isCacheSet = 0 :=
  (cache_error_fail_closed brokenCacheDeps () () 1 2 (GoError.other "connection refused")
    rfl).1 (by decide)

/-- C6: when the lookup misses and the store returns banner `b`, the call makes
exactly one cache `Set`, with the composite key, the serialization of `b` and
the configured expiration; it returns the `Set` error and no banner if that
`Set` fails, and `b` if it succeeds. -/
theorem write_back_on_miss {σ : Type} (r : Deps σ) (s s1 s2 : σ) (f t : Int) (b : Banner)
    (hget : r.rdbGet s (cacheKey f t) = (.error GoError.redisNil, s1))
    (hdb : r.dbGetActive s1 f t = (.ok b, s2)) :
    (GetActiveBannerByFeatureTag r s ⟨f, t, some false⟩).trace
        = [Call.rdbGet (cacheKey f t), Call.dbGetActive f t,
            Call.rdbSet (cacheKey f t) (r.jsonMarshal b) r.CacheExpiration]
      ∧ (GetActiveBannerByFeatureTag r s ⟨f, t, some false⟩).trace.countP Call.isCacheSet = 1
      ∧ (∀ e : GoError,
          (r.rdbSet s2 (cacheKey f t) (r.jsonMarshal b) r.CacheExpiration).1 = some e →
          (GetActiveBannerByFeatureTag r s ⟨f, t, some false⟩).result = .error e)
      ∧ ((r.rdbSet s2 (cacheKey f t) (r.jsonMarshal b) r.CacheExpiration).1 = none →
          (GetActiveBannerByFeatureTag r s ⟨f, t, some false⟩).result = .ok b) := by
  rw [get_miss r s s1 f t hget, get_bypass_store_ok r s1 s2 f t b hdb]
  refine ⟨rfl, rfl, ?_, ?_⟩
  · intro e he
    simp [he]
  · intro he
    simp [he]

/-- C6 at a concrete input: a cold map cache is filled with the store's banner,
which is returned. -/
theorem write_back_on_miss_witness :
    (GetActiveBannerByFeatureTag sampleDeps coldCache ⟨1, 2, some false⟩).trace
        = [Call.rdbGet (cacheKey 1 2), Call.dbGetActive 1 2,
            Call.rdbSet (cacheKey 1 2) [1] 300]
      ∧ (GetActiveBannerByFeatureTag sampleDeps coldCache ⟨1, 2, some false⟩).result
          = .ok newBanner :=
  ⟨(write_back_on_miss sampleDeps coldCache coldCache coldCache 1 2 newBanner rfl rfl).1,
    (write_back_on_miss sampleDeps coldCache coldCache coldCache 1 2 newBanner rfl rfl).2.2.2
      rfl⟩

/-- C7: every call reads the store at most once; on bypass (any switch other
than an explicit `false`) and on a cache miss it reads it exactly once; and
when that read fails with an error `e` (not-found `sql.ErrNoRows` or any
other) the call returns exactly `e`, no banner, and makes no cache `Set`. -/
theorem store_read_once_and_errors_unchanged {σ : Type} (r : Deps σ) (s : σ) (f t : Int)
    (ulr : Option Bool) :
    (GetActiveBannerByFeatureTag r s ⟨f, t, ulr⟩).trace.countP Call.isStoreRead ≤ 1
      ∧ (ulr ≠ some false →
          (GetActiveBannerByFeatureTag r s ⟨f, t, ulr⟩).trace.countP Call.isStoreRead = 1
          ∧ ∀ (e : GoError) (s2 : σ), r.dbGetActive s f t = (.error e, s2) →
              (GetActiveBannerByFeatureTag r s ⟨f, t, ulr⟩).result = .error e
              ∧ (GetActiveBannerByFeatureTag r s ⟨f, t, ulr⟩).trace.countP Call.isCacheSet = 0)
      ∧ (∀ s1 : σ, ulr = some false →
          r.rdbGet s (cacheKey f t) = (.error GoError.redisNil, s1) →
          (GetActiveBannerByFeatureTag r s ⟨f, t, ulr⟩).trace.countP Call.isStoreRead = 1
          ∧ ∀ (e : GoError) (s2 : σ), r.dbGetActive s1 f t = (.error e, s2) →
              (GetActiveBannerByFeatureTag r s ⟨f, t, ulr⟩).result = .error e
              ∧ (GetActiveBannerByFeatureTag r s ⟨f, t, ulr⟩).trace.countP Call.isCacheSet
                  = 0) := by
  refine ⟨get_reads_at_most_once r s f t ulr, ?_, ?_⟩
  · intro hu
    rw [get_of_ne_false r s f t ulr hu]
    refine ⟨get_bypass_reads_once r s f t, ?_⟩
    intro e s2 hdb
    rw [get_bypass_store_error r s s2 f t e hdb]
    exact ⟨rfl, rfl⟩
  · intro s1 hu hget
    subst hu
    rw [get_miss r s s1 f t hget]
    refine ⟨?_, ?_⟩
    · have h1 := get_bypass_reads_once r s1 f t
      simpa [List.countP_cons, Call.isStoreRead] using h1
    · intro e s2 hdb
      rw [get_bypass_store_error r s1 s2 f t e hdb]
      exact ⟨rfl, rfl⟩

/-- C7 at a concrete input: after a miss on a cold cache, the store's
not-found is what the caller gets, and nothing is written to the cache. -/
theorem store_read_once_and_errors_unchanged_witness :
    (GetActiveBannerByFeatureTag emptyStoreDeps coldCache ⟨1, 2, some false⟩).result
        = .error GoError.sqlErrNoRows
      ∧ (GetActiveBannerByFeatureTag emptyStoreDeps coldCache ⟨1, 2, some false⟩).trace.countP
          Call.isCacheSet = 0 :=
  ((store_read_once_and_errors_unchanged emptyStoreDeps coldCache 1 2 (some false)).2.2
    coldCache rfl rfl).2 GoError.sqlErrNoRows coldCache rfl

/-- C8: against a cache that is a plain map without an entry for the key, and
a store that holds `b` for the pair, two consecutive calls with the switch
`false` give: first `b`, then the deserialization of the serialization of
`b`, which is the same banner whenever the codec round-trips `b`; the two
calls read the store once in total (the first does, the second does not). -/
theorem cache_hit_idempotence (store : Int → Int → Except GoError Banner)
    (jsonMarshal : Banner → Bytes) (jsonUnmarshal : Bytes → Except GoError Banner) (ttl : Nat)
    (m : String → Option Bytes) (f t : Int) (b : Banner)
    (hstore : store f t = .ok b) (hcold : m (cacheKey f t) = none) :
    (GetActiveBannerByFeatureTag (mapDeps store jsonMarshal jsonUnmarshal ttl) m
        ⟨f, t, some false⟩).result = .ok b
      ∧ (GetActiveBannerByFeatureTag (mapDeps store jsonMarshal jsonUnmarshal ttl)
          (GetActiveBannerByFeatureTag (mapDeps store jsonMarshal jsonUnmarshal ttl) m
            ⟨f, t, some false⟩).world ⟨f, t, some false⟩).result
          = jsonUnmarshal (jsonMarshal b)
      ∧ (jsonUnmarshal (jsonMarshal b) = .ok b →
          (GetActiveBannerByFeatureTag (mapDeps store jsonMarshal jsonUnmarshal ttl)
            (GetActiveBannerByFeatureTag (mapDeps store jsonMarshal jsonUnmarshal ttl) m
              ⟨f, t, some false⟩).world ⟨f, t, some false⟩).result
            = (GetActiveBannerByFeatureTag (mapDeps store jsonMarshal jsonUnmarshal ttl) m
                ⟨f, t, some false⟩).result)
      ∧ ((GetActiveBannerByFeatureTag (mapDeps store jsonMarshal jsonUnmarshal ttl) m
            ⟨f, t, some false⟩).trace
          ++ (GetActiveBannerByFeatureTag (mapDeps store jsonMarshal jsonUnmarshal ttl)
              (GetActiveBannerByFeatureTag (mapDeps store jsonMarshal jsonUnmarshal ttl) m
                ⟨f, t, some false⟩).world ⟨f, t, some false⟩).trace).countP
          Call.isStoreRead = 1 := by
  have hget : (mapDeps store jsonMarshal jsonUnmarshal ttl).rdbGet m (cacheKey f t)
      = (.error GoError.redisNil, m) := by
    simp [mapDeps, hcold]
  have hdb : (mapDeps store jsonMarshal jsonUnmarshal ttl).dbGetActive m f t = (.ok b, m) := by
    simp [mapDeps, hstore]
  have h1 := get_miss _ m m f t hget
  rw [get_bypass_store_ok _ m m f t b hdb] at h1
  have hres1 : (GetActiveBannerByFeatureTag (mapDeps store jsonMarshal jsonUnmarshal ttl) m
      ⟨f, t, some false⟩).result = .ok b := by
    rw [h1]; rfl
  have hget2 : (mapDeps store jsonMarshal jsonUnmarshal ttl).rdbGet
      (GetActiveBannerByFeatureTag (mapDeps store jsonMarshal jsonUnmarshal ttl) m
        ⟨f, t, some false⟩).world (cacheKey f t)
      = (.ok (jsonMarshal b), (GetActiveBannerByFeatureTag
          (mapDeps store jsonMarshal jsonUnmarshal ttl) m ⟨f, t, some false⟩).world) := by
    rw [h1]
    simp [mapDeps]
  have h2 := get_lookup_returns _ _ _ f t _ hget2 (by simp)
  have hres2 : (GetActiveBannerByFeatureTag (mapDeps store jsonMarshal jsonUnmarshal ttl)
      (GetActiveBannerByFeatureTag (mapDeps store jsonMarshal jsonUnmarshal ttl) m
        ⟨f, t, some false⟩).world ⟨f, t, some false⟩).result
      = jsonUnmarshal (jsonMarshal b) := by
    rw [h2]; rfl
  refine ⟨hres1, hres2, ?_, ?_⟩
  · intro hround
    rw [hres2, hres1, hround]
  · have ht1 : (GetActiveBannerByFeatureTag (mapDeps store jsonMarshal jsonUnmarshal ttl) m
        ⟨f, t, some false⟩).trace
        = [Call.rdbGet (cacheKey f t), Call.dbGetActive f t,
            Call.rdbSet (cacheKey f t) (jsonMarshal b) ttl] := by
      rw [h1]; rfl
    have ht2 : (GetActiveBannerByFeatureTag (mapDeps store jsonMarshal jsonUnmarshal ttl)
        (GetActiveBannerByFeatureTag (mapDeps store jsonMarshal jsonUnmarshal ttl) m
          ⟨f, t, some false⟩).world ⟨f, t, some false⟩).trace
        = [Call.rdbGet (cacheKey f t)] := by
      rw [h2]
    rw [ht1, ht2]
    rfl

/-- C8 at a concrete input: a cold cache, two calls, the same banner twice. -/
theorem cache_hit_idempotence_witness :
    (GetActiveBannerByFeatureTag sampleDeps
        (GetActiveBannerByFeatureTag sampleDeps coldCache ⟨1, 2, some false⟩).world
        ⟨1, 2, some false⟩).result
      = (GetActiveBannerByFeatureTag sampleDeps coldCache ⟨1, 2, some false⟩).result :=
  (cache_hit_idempotence (fun _ _ => .ok newBanner) sampleMarshal sampleUnmarshal 300
    coldCache 1 2 newBanner rfl rfl).2.2.1 rfl

/-! ## The deletion batcher -/

/-- `append` adds the id at the end, whatever happens to the capacity. -/
lemma Slice.append_elems (growslice : Nat → Nat) (sl : Slice) (x : Int) :
    (sl.append growslice x).elems = sl.elems ++ [x] := by
  unfold Slice.append
  split <;> rfl

/-- A send or a delivery moves ids from the channel to the end of the buffer
or adds one to the channel, and touches nothing else. -/
lemma step_send_or_deliver (config : Config) (growslice : Nat → Nat) (s s1 : BannerService)
    (e : Event) (he : e.isSendOrDeliver = true) (h : step config growslice s e = some s1) :
    ∃ extra : List Int, s1.ids.elems = s.ids.elems ++ extra
      ∧ extra ++ s1.deleteChan = s.deleteChan ++ accepted [e]
      ∧ s1.done = s.done ∧ s1.exited = s.exited ∧ s1.crashed = s.crashed
      ∧ s1.deleted = s.deleted := by
  cases e with
  | enqueue id =>
    simp only [step] at h
    split_ifs at h with h1 h2 h3
    · cases h
      exact ⟨[], by simp, by simp [accepted], rfl, rfl, rfl, rfl⟩
    · cases h
      refine ⟨[id], Slice.append_elems _ _ _, ?_, rfl, rfl, rfl, rfl⟩
      have hlen : s.deleteChan.length = 0 := h3.2.1
      have hnil : s.deleteChan = [] := List.length_eq_zero.mp hlen
      simp [accepted, hnil]
  | deliver =>
    simp only [step] at h
    split_ifs at h with h1
    cases hq : s.deleteChan with
    | nil => simp [hq] at h
    | cons id rest =>
      simp only [hq] at h
      cases h
      exact ⟨[id], Slice.append_elems _ _ _, by simp [accepted], rfl, rfl, rfl, rfl⟩
  | stop => simp [Event.isSendOrDeliver] at he
  | shutdown repoErr => simp [Event.isSendOrDeliver] at he
  | tick repoErr => simp [Event.isSendOrDeliver] at he

/-- The ids accepted by a sequence of events, split at any point. -/
lemma accepted_cons (e : Event) (es : List Event) :
    accepted (e :: es) = accepted [e] ++ accepted es := by
  cases e <;> simp [accepted]

/-- Over any sequence of sends and deliveries the buffer only grows at its
end, by ids taken from the channel in order; no id is lost or duplicated, and
no flush, shutdown or crash happens. -/
lemma run_send_or_deliver (config : Config) (growslice : Nat → Nat) (es : List Event) :
    ∀ (s s1 : BannerService), (∀ e ∈ es, e.isSendOrDeliver = true) →
      run config growslice s es = some s1 →
      ∃ extra : List Int, s1.ids.elems = s.ids.elems ++ extra
        ∧ extra ++ s1.deleteChan = s.deleteChan ++ accepted es
        ∧ s1.done = s.done ∧ s1.exited = s.exited ∧ s1.crashed = s.crashed
        ∧ s1.deleted = s.deleted := by
  induction es with
  | nil =>
    intro s s1 _ h
    simp only [run] at h
    cases h
    exact ⟨[], by simp, by simp [accepted], rfl, rfl, rfl, rfl⟩
  | cons e es ih =>
    intro s s1 hes h
    simp only [run] at h
    cases hstep : step config growslice s e with
    | none => simp [hstep] at h
    | some sm =>
      simp only [hstep] at h
      obtain ⟨x1, hx1, hq1, hd1, he1, hc1, hl1⟩ :=
        step_send_or_deliver config growslice s sm e (hes e (List.mem_cons_self _ _)) hstep
      obtain ⟨x2, hx2, hq2, hd2, he2, hc2, hl2⟩ :=
        ih sm s1 (fun e1 h1 => hes e1 (List.mem_cons_of_mem _ h1)) h
      refine ⟨x1 ++ x2, ?_, ?_, hd2.trans hd1, he2.trans he1, hc2.trans hc1, hl2.trans hl1⟩
      · rw [hx2, hx1, List.append_assoc]
      · rw [List.append_assoc, hq2, ← List.append_assoc, hq1, accepted_cons e es,
          List.append_assoc]

/-- A flush of a non-empty list calls `DeleteBannersByID` once with that list,
whatever the call returns. -/
lemma flush_log (deleted : List (List Int)) (bannerIDs : List Int) (repoErr : Option GoError)
    (h : bannerIDs.length ≠ 0) :
    (flush deleted bannerIDs repoErr).2 = deleted ++ [bannerIDs] := by
  unfold flush
  cases repoErr <;> simp [h]

/-- What `NewService` builds when it does not panic. -/
lemma NewService_ok (config : Config) (s0 : BannerService) (h : NewService config = .ok s0) :
    s0 = ⟨[], false, ⟨[], config.BannerBufferLength.toNat⟩, false, none, []⟩ := by
  unfold NewService makeSlice at h
  split_ifs at h with h1
  simp only at h
  cases h
  rfl

/-- The shutdown signal on a running service whose `done` is still open. -/
lemma signalShutdown_open (s : BannerService) (hd : s.done = false) :
    signalShutdown s = .ok { s with done := true } := by
  simp [signalShutdown, OnceFunc.call, OnceFunc.new, closeChan, hd]

/-- The shutdown signal once `done` is closed. -/
lemma signalShutdown_closed (s : BannerService) (hd : s.done = true) :
    signalShutdown s = .error ⟨"close of closed channel"⟩ := by
  simp [signalShutdown, OnceFunc.call, OnceFunc.new, closeChan, hd]

/-- C1 (the code at the failing input): on a service built by `NewService` the
first `Stop()` signals shutdown and ends normally, and a second `Stop()`
panics with "close of closed channel", whichever way either wait would end. -/
theorem second_stop_panics (config : Config) (s : BannerService)
    (hnew : NewService config = .ok s) (first second : Bool) :
    (Stop s first).1 = .ok (if first then StopOutcome.ready else StopOutcome.timeout)
      ∧ (Stop (Stop s first).2 second).1 = .error ⟨"close of closed channel"⟩
      ∧ (Stop (Stop s first).2 second).2.crashed = some ⟨"close of closed channel"⟩ := by
  have hs := NewService_ok config s hnew
  have hd : s.done = false := by rw [hs]
  have h1 : Stop s first
      = (.ok (if first then StopOutcome.ready else StopOutcome.timeout),
          { s with done := true }) := by
    simp [Stop, signalShutdown_open s hd]
  rw [h1]
  refine ⟨rfl, ?_, ?_⟩ <;>
    simp [Stop, signalShutdown_closed { s with done := true } rfl]

/-- C1 at a concrete input: the default configuration, both waits ending on
`ready`. -/
theorem second_stop_panics_witness :
    (Stop freshService true).1 = .ok StopOutcome.ready
      ∧ (Stop (Stop freshService true).2 true).1 = .error ⟨"close of closed channel"⟩ :=
  ⟨(second_stop_panics defaultConfig freshService rfl true true).1,
    (second_stop_panics defaultConfig freshService rfl true true).2.1⟩

/-- C9 (the code at the failing input): with the default configuration, ids 6
and 7 are accepted, `Stop()` is called before any tick, and the background
task takes the shutdown case while both ids are still in the channel: it
exits, so that `Stop()` can return, without any `DeleteBannersByID` call, and
6 and 7 stay in the channel for good, where the claim has `DeleteBannersByID`
called with `[6, 7]` before the exit. -/
theorem queued_ids_missed_by_drain_example :
    NewService defaultConfig = .ok freshService
      ∧ run defaultConfig doubling freshService
          [Event.enqueue 6, Event.enqueue 7, Event.stop, Event.shutdown none]
        = some ⟨[6, 7], true, ⟨[], 5⟩, true, none, []⟩ := by
  constructor <;> rfl

/-- The part of the shutdown drain that works: in every execution from
`NewService` that consists of sends and deliveries only (no tick), followed by
`Stop()` and the background task taking the shutdown case, the task makes,
before it exits, exactly one
`DeleteBannersByID` call with the ids delivered to the accumulation buffer so
far, in arrival order (no call if none was delivered), and exits whether or
not that call succeeds; delivered and still queued ids together are exactly
the accepted ids in order, the queued ones are left in the channel, and so
the final drain carries all accepted ids exactly when none is still queued. -/
theorem drain_flushes_delivered_ids (config : Config) (growslice : Nat → Nat)
    (s0 s : BannerService) (es : List Event) (repoErr : Option GoError)
    (hnew : NewService config = .ok s0)
    (hes : ∀ e ∈ es, e.isSendOrDeliver = true)
    (hrun : run config growslice s0 es = some s) :
    s.ids.elems ++ s.deleteChan = accepted es
      ∧ ∃ s1 : BannerService,
          run config growslice s [Event.stop, Event.shutdown repoErr] = some s1
          ∧ s1.exited = true
          ∧ s1.deleted = (if s.ids.elems = [] then [] else [s.ids.elems])
          ∧ s1.deleteChan = s.deleteChan
          ∧ (s.deleteChan = [] → accepted es ≠ [] → s1.deleted = [accepted es]) := by
  have hs0 := NewService_ok config s0 hnew
  obtain ⟨extra, hx, hq, hd, he, hc, hl⟩ := run_send_or_deliver config growslice es s0 s hes hrun
  have hd0 : s.done = false := by rw [hd, hs0]
  have he0 : s.exited = false := by rw [he, hs0]
  have hc0 : s.crashed = none := by rw [hc, hs0]
  have hl0 : s.deleted = [] := by rw [hl, hs0]
  have hcons : s.ids.elems ++ s.deleteChan = accepted es := by
    rw [hx, List.append_assoc, hq, hs0]
    simp
  refine ⟨hcons, ?_⟩
  by_cases hids : s.ids.elems = []
  · refine ⟨{ s with done := true, exited := true }, ?_, rfl, ?_, rfl, ?_⟩
    · simp [run, step, hc0, he0, signalShutdown_open s hd0, hids]
    · simp [hids, hl0]
    · intro hq0 hne
      rw [hids, hq0] at hcons
      exact absurd hcons.symm hne
  · refine ⟨{ s with done := true, exited := true, deleted := [s.ids.elems] }, ?_, rfl, ?_,
      rfl, ?_⟩
    · have hlen : s.ids.elems.length ≠ 0 := fun h => hids (List.length_eq_zero.mp h)
      have hlog := flush_log s.deleted s.ids.elems repoErr hlen
      rw [hl0] at hlog
      simp [run, step, hc0, he0, signalShutdown_open s hd0, hlen, hlog, hl0]
    · simp [hids]
    · intro hq0 _
      rw [hq0, List.append_nil] at hcons
      simp [hcons]

/-- The working part of the drain at a concrete input: 6 and 7 are accepted
and delivered, then `Stop()` is called: the final drain is called with
`[6, 7]`. -/
theorem drain_flushes_delivered_ids_witness :
    ∃ s1 : BannerService,
      run defaultConfig doubling ⟨[], false, ⟨[6, 7], 5⟩, false, none, []⟩
          [Event.stop, Event.shutdown none] = some s1
      ∧ s1.exited = true ∧ s1.deleted = [[6, 7]] := by
  obtain ⟨s1, h1, h2, h3, _, _⟩ :=
    (drain_flushes_delivered_ids defaultConfig doubling freshService
      ⟨[], false, ⟨[6, 7], 5⟩, false, none, []⟩
      [Event.enqueue 6, Event.enqueue 7, Event.deliver, Event.deliver] none
      rfl (by decide) rfl).2
  exact ⟨s1, h1, h2, by simpa using h3⟩

/-- C10: in the Running state with a non-empty buffer `ids`, a tick whose
`DeleteBannersByID` call fails makes that one call with `ids` and changes
nothing else, so the buffer is still exactly `ids`; after any sends and
deliveries in between, the next tick calls `DeleteBannersByID` with `ids`
followed by the ids delivered in between (taken from the channel in order). -/
theorem failed_flush_keeps_buffer (config : Config) (growslice : Nat → Nat)
    (s : BannerService) (err : GoError)
    (hc : s.crashed = none) (he : s.exited = false) (hne : s.ids.elems ≠ []) :
    step config growslice s (Event.tick (some err))
        = some { s with deleted := s.deleted ++ [s.ids.elems] }
      ∧ ∀ (es : List Event) (s2 : BannerService) (repoErr : Option GoError),
          (∀ e ∈ es, e.isSendOrDeliver = true) →
          run config growslice { s with deleted := s.deleted ++ [s.ids.elems] } es = some s2 →
          ∃ (extra : List Int) (s3 : BannerService),
            extra ++ s2.deleteChan = s.deleteChan ++ accepted es
            ∧ s2.ids.elems = s.ids.elems ++ extra
            ∧ step config growslice s2 (Event.tick repoErr) = some s3
            ∧ s3.deleted = s.deleted ++ [s.ids.elems, s.ids.elems ++ extra] := by
  have hlen : s.ids.elems.length ≠ 0 := fun h => hne (List.length_eq_zero.mp h)
  constructor
  · simp [step, hc, he, hlen, flush]
  · intro es s2 repoErr hes hrun
    obtain ⟨extra, hx, hq, _, he2, hc2, hl2⟩ :=
      run_send_or_deliver config growslice es _ s2 hes hrun
    simp only at hx hq he2 hc2 hl2
    have hlen2 : s2.ids.elems.length ≠ 0 := by
      rw [hx, List.length_append]
      omega
    have hlog : s2.deleted ++ [s2.ids.elems]
        = s.deleted ++ [s.ids.elems, s.ids.elems ++ extra] := by
      rw [hl2, hx]
      simp
    cases repoErr with
    | some e2 =>
      refine ⟨extra, { s2 with deleted := s2.deleted ++ [s2.ids.elems] }, hq, hx, ?_, hlog⟩
      simp [step, hc2, hc, he2, he, hlen2, flush]
    | none =>
      cases hreset : s2.ids.resetTo config.BannerBufferLength with
      | ok ids1 =>
        refine ⟨extra, { s2 with deleted := s2.deleted ++ [s2.ids.elems], ids := ids1 }, hq,
          hx, ?_, hlog⟩
        simp [step, hc2, hc, he2, he, hlen2, flush, hreset]
      | error p =>
        refine ⟨extra, { s2 with deleted := s2.deleted ++ [s2.ids.elems], crashed := some p },
          hq, hx, ?_, hlog⟩
        simp [step, hc2, hc, he2, he, hlen2, flush, hreset]

/-- C10 at a concrete input: the flush of `[4, 5]` fails once and is made
again with `[4, 5]` in front; id 9, accepted and delivered in between, follows
them in the next tick's call. -/
theorem failed_flush_keeps_buffer_witness :
    step defaultConfig doubling ⟨[], false, ⟨[4, 5], 5⟩, false, none, []⟩
        (Event.tick (some (GoError.other "deadlock detected")))
      = some ⟨[], false, ⟨[4, 5], 5⟩, false, none, [[4, 5]]⟩
    ∧ ∃ (extra : List Int) (s3 : BannerService),
        extra ++ [] = [] ++ accepted [Event.enqueue 9, Event.deliver]
        ∧ [4, 5, 9] = [4, 5] ++ extra
        ∧ step defaultConfig doubling ⟨[], false, ⟨[4, 5, 9], 5⟩, false, none, [[4, 5]]⟩
            (Event.tick none) = some s3
        ∧ s3.deleted = [] ++ [[4, 5], [4, 5] ++ extra] :=
  ⟨(failed_flush_keeps_buffer defaultConfig doubling
      ⟨[], false, ⟨[4, 5], 5⟩, false, none, []⟩ (GoError.other "deadlock detected")
      rfl rfl (by decide)).1,
    (failed_flush_keeps_buffer defaultConfig doubling
      ⟨[], false, ⟨[4, 5], 5⟩, false, none, []⟩ (GoError.other "deadlock detected")
      rfl rfl (by decide)).2 [Event.enqueue 9, Event.deliver]
      ⟨[], false, ⟨[4, 5, 9], 5⟩, false, none, [[4, 5]]⟩ none (by decide) rfl⟩

/-! ## Invariants of the batcher -/

/-- The shutdown signal either closes `done` or panics on a closed `done`. -/
lemma signalShutdown_cases (s : BannerService) :
    signalShutdown s = .ok { s with done := true }
      ∨ signalShutdown s = .error ⟨"close of closed channel"⟩ := by
  cases hd : s.done with
  | false => exact Or.inl (signalShutdown_open s hd)
  | true => exact Or.inr (signalShutdown_closed s hd)

/-- `append` never lowers the capacity. -/
lemma Slice.append_cap (growslice : Nat → Nat) (sl : Slice) (x : Int) :
    sl.cap ≤ (sl.append growslice x).cap := by
  unfold Slice.append
  split
  · exact le_refl _
  · rename_i h
    have h1 : sl.cap ≤ sl.elems.length := Nat.le_of_not_lt h
    exact le_trans (le_trans h1 (Nat.le_succ _)) (le_max_right _ _)

/-- No step lets the channel hold more ids than the configured length, nor
lowers the capacity of the buffer below it. -/
lemma step_bounds (config : Config) (growslice : Nat → Nat) (s s1 : BannerService) (e : Event)
    (hq : s.deleteChan.length ≤ config.BannerBufferLength.toNat)
    (hcap : config.BannerBufferLength.toNat ≤ s.ids.cap)
    (h : step config growslice s e = some s1) :
    s1.deleteChan.length ≤ config.BannerBufferLength.toNat
      ∧ config.BannerBufferLength.toNat ≤ s1.ids.cap := by
  cases e with
  | enqueue id =>
    simp only [step] at h
    split_ifs at h with h1 h2 h3
    · cases h
      refine ⟨?_, hcap⟩
      simp only [List.length_append, List.length_singleton]
      omega
    · cases h
      exact ⟨hq, le_trans hcap (Slice.append_cap _ _ _)⟩
  | stop =>
    simp only [step] at h
    split_ifs at h with h1
    rcases signalShutdown_cases s with h2 | h2
    · rw [h2] at h
      cases h
      exact ⟨hq, hcap⟩
    · rw [h2] at h
      cases h
      exact ⟨hq, hcap⟩
  | deliver =>
    simp only [step] at h
    split_ifs at h with h1
    cases hch : s.deleteChan with
    | nil => simp [hch] at h
    | cons id rest =>
      simp only [hch] at h
      cases h
      refine ⟨?_, le_trans hcap (Slice.append_cap _ _ _)⟩
      rw [hch] at hq
      simp only [List.length_cons] at hq
      exact le_trans (Nat.le_succ _) hq
  | shutdown repoErr =>
    simp only [step] at h
    split_ifs at h with h1 h2
    · cases h
      exact ⟨hq, hcap⟩
    · cases h
      exact ⟨hq, hcap⟩
  | tick repoErr =>
    simp only [step] at h
    split_ifs at h with h1 h2
    · cases h
      exact ⟨hq, hcap⟩
    · cases repoErr with
      | some err =>
        simp only [flush, h2, if_false] at h
        cases h
        exact ⟨hq, hcap⟩
      | none =>
        simp only [flush, h2, if_false] at h
        cases hreset : s.ids.resetTo config.BannerBufferLength with
        | error p =>
          simp only [hreset] at h
          cases h
          exact ⟨hq, hcap⟩
        | ok ids1 =>
          simp only [hreset] at h
          cases h
          refine ⟨hq, ?_⟩
          unfold Slice.resetTo at hreset
          split_ifs at hreset
          cases hreset
          exact le_refl _

/-- The bounds of `step_bounds` hold along every run. -/
lemma run_bounds (config : Config) (growslice : Nat → Nat) (es : List Event) :
    ∀ (s s1 : BannerService), s.deleteChan.length ≤ config.BannerBufferLength.toNat →
      config.BannerBufferLength.toNat ≤ s.ids.cap →
      run config growslice s es = some s1 →
      s1.deleteChan.length ≤ config.BannerBufferLength.toNat
        ∧ config.BannerBufferLength.toNat ≤ s1.ids.cap := by
  induction es with
  | nil =>
    intro s s1 hq hcap h
    simp only [run] at h
    cases h
    exact ⟨hq, hcap⟩
  | cons e es ih =>
    intro s s1 hq hcap h
    simp only [run] at h
    cases hstep : step config growslice s e with
    | none => simp [hstep] at h
    | some sm =>
      simp only [hstep] at h
      obtain ⟨hq1, hcap1⟩ := step_bounds config growslice s sm e hq hcap hstep
      exact ih sm s1 hq1 hcap1 h

/-- The bounds hold in every state reached from `NewService`. -/
lemma reachable_bounds (config : Config) (growslice : Nat → Nat) (s0 s : BannerService)
    (es : List Event) (hnew : NewService config = .ok s0)
    (hrun : run config growslice s0 es = some s) :
    0 ≤ config.BannerBufferLength
      ∧ s.deleteChan.length ≤ config.BannerBufferLength.toNat
      ∧ config.BannerBufferLength.toNat ≤ s.ids.cap := by
  have hs0 := NewService_ok config s0 hnew
  have hn : 0 ≤ config.BannerBufferLength := by
    unfold NewService at hnew
    split_ifs at hnew with h1
    omega
  refine ⟨hn, ?_⟩
  apply run_bounds config growslice es s0 s _ _ hrun
  · rw [hs0]; simp
  · rw [hs0]

/-- The reset `ids[:0:n]` succeeds whenever `0 ≤ n ≤ cap(ids)`. -/
lemma Slice.resetTo_ok (sl : Slice) (n : Int) (hn : 0 ≤ n) (hcap : n.toNat ≤ sl.cap) :
    sl.resetTo n = .ok ⟨[], n.toNat⟩ := by
  unfold Slice.resetTo
  have h : ¬ (n < 0 ∨ (sl.cap : Int) < n) := by omega
  simp [h]

/-- C11: in the Running state of any service reached from `NewService`, a tick
with an empty buffer leaves the state as it is (so it makes no
`DeleteBannersByID` call); a tick with a non-empty buffer makes exactly one
call, whose argument is the buffer, and leaves the channel alone; when that
call succeeds the buffer becomes empty, when it fails the buffer is kept.
The buffer is in arrival order: over sends and deliveries it is, followed by
the channel, the list of accepted ids. -/
theorem tick_flush (config : Config) (growslice : Nat → Nat) (s0 s : BannerService)
    (es : List Event) (repoErr : Option GoError)
    (hnew : NewService config = .ok s0) (hrun : run config growslice s0 es = some s)
    (hc : s.crashed = none) (he : s.exited = false) :
    (s.ids.elems = [] → step config growslice s (Event.tick repoErr) = some s)
      ∧ (s.ids.elems ≠ [] →
          ∃ s1 : BannerService, step config growslice s (Event.tick repoErr) = some s1
            ∧ s1.deleted = s.deleted ++ [s.ids.elems]
            ∧ s1.deleteChan = s.deleteChan ∧ s1.exited = false ∧ s1.crashed = none
            ∧ (repoErr = none → s1.ids.elems = [])
            ∧ (repoErr ≠ none → s1.ids = s.ids))
      ∧ ((∀ e ∈ es, e.isSendOrDeliver = true) →
          s.ids.elems ++ s.deleteChan = accepted es ∧ s.deleted = []) := by
  obtain ⟨hn, _, hcap⟩ := reachable_bounds config growslice s0 s es hnew hrun
  refine ⟨?_, ?_, ?_⟩
  · intro hnil
    simp [step, hc, he, hnil]
  · intro hne
    have hlen : s.ids.elems.length ≠ 0 := fun h => hne (List.length_eq_zero.mp h)
    cases repoErr with
    | some err =>
      refine ⟨{ s with deleted := s.deleted ++ [s.ids.elems] }, ?_, rfl, rfl, he, hc, ?_, ?_⟩
      · simp [step, hc, he, hlen, flush]
      · intro h; cases h
      · intro _; rfl
    | none =>
      refine ⟨{ s with deleted := s.deleted ++ [s.ids.elems],
                       ids := ⟨[], config.BannerBufferLength.toNat⟩ }, ?_, rfl, rfl, he, hc,
        ?_, ?_⟩
      · simp [step, hc, he, hlen, flush, Slice.resetTo_ok s.ids _ hn hcap]
      · intro _; rfl
      · intro h; exact absurd rfl h
  · intro hes
    have hs0 := NewService_ok config s0 hnew
    obtain ⟨extra, hx, hq, _, _, _, hl⟩ :=
      run_send_or_deliver config growslice es s0 s hes hrun
    refine ⟨?_, ?_⟩
    · rw [hx, List.append_assoc, hq, hs0]
      simp
    · rw [hl, hs0]

/-- C11 at a concrete input: with buffer length 5, ids 1, 2, 3 are sent and
delivered; one tick calls `DeleteBannersByID` exactly once, with `[1, 2, 3]`,
and the buffer is empty afterwards. -/
theorem tick_flush_witness :
    ∃ s1 : BannerService,
      step defaultConfig doubling ⟨[], false, ⟨[1, 2, 3], 5⟩, false, none, []⟩
          (Event.tick none) = some s1
      ∧ s1.deleted = [[1, 2, 3]] ∧ s1.ids.elems = [] := by
  obtain ⟨s1, h1, h2, _, _, _, h3, _⟩ :=
    (tick_flush defaultConfig doubling freshService
      ⟨[], false, ⟨[1, 2, 3], 5⟩, false, none, []⟩
      [Event.enqueue 1, Event.enqueue 2, Event.enqueue 3, Event.deliver, Event.deliver,
        Event.deliver] none rfl rfl rfl rfl).2.1 (by decide)
  exact ⟨s1, h1, by simpa using h2, h3 rfl⟩

/-- Once the background task has exited, no event makes a `DeleteBannersByID`
call or brings the task back. -/
lemma step_after_exit (config : Config) (growslice : Nat → Nat) (s s1 : BannerService)
    (e : Event) (he : s.exited = true) (h : step config growslice s e = some s1) :
    s1.exited = true ∧ s1.deleted = s.deleted ∧ s1.ids = s.ids := by
  cases e with
  | enqueue id =>
    simp only [step] at h
    split_ifs at h with h1 h2 h3
    · cases h
      exact ⟨he, rfl, rfl⟩
    · rw [he] at h3
      simp at h3
  | stop =>
    simp only [step] at h
    split_ifs at h with h1
    rcases signalShutdown_cases s with h2 | h2
    · rw [h2] at h
      cases h
      exact ⟨he, rfl, rfl⟩
    · rw [h2] at h
      cases h
      exact ⟨he, rfl, rfl⟩
  | deliver => simp [step, he] at h
  | shutdown repoErr => simp [step, he] at h
  | tick repoErr => simp [step, he] at h

/-- The same along every run. -/
lemma run_after_exit (config : Config) (growslice : Nat → Nat) (es : List Event) :
    ∀ (s s1 : BannerService), s.exited = true → run config growslice s es = some s1 →
      s1.exited = true ∧ s1.deleted = s.deleted ∧ s1.ids = s.ids := by
  induction es with
  | nil =>
    intro s s1 he h
    simp only [run] at h
    cases h
    exact ⟨he, rfl, rfl⟩
  | cons e es ih =>
    intro s s1 he h
    simp only [run] at h
    cases hstep : step config growslice s e with
    | none => simp [hstep] at h
    | some sm =>
      simp only [hstep] at h
      obtain ⟨he1, hl1, hi1⟩ := step_after_exit config growslice s sm e he hstep
      obtain ⟨he2, hl2, hi2⟩ := ih sm s1 he1 h
      exact ⟨he2, hl2.trans hl1, hi2.trans hi1⟩

/-- C18: when the background task, running and with `done` closed, takes the
shutdown case with buffer `ids`, it makes exactly one `DeleteBannersByID` call
with `ids` if `ids` is non-empty and none if it is empty, and exits, whatever
that call returns; the channel is not read.  After that no sequence of events
adds a `DeleteBannersByID` call, even with ids still in the channel. -/
theorem drain_then_stopped (config : Config) (growslice : Nat → Nat) (s : BannerService)
    (repoErr : Option GoError)
    (hc : s.crashed = none) (he : s.exited = false) (hd : s.done = true) :
    ∃ s1 : BannerService, step config growslice s (Event.shutdown repoErr) = some s1
      ∧ s1.exited = true
      ∧ s1.deleted = s.deleted ++ (if s.ids.elems = [] then [] else [s.ids.elems])
      ∧ s1.deleteChan = s.deleteChan
      ∧ ∀ (es : List Event) (s2 : BannerService), run config growslice s1 es = some s2 →
          s2.exited = true ∧ s2.deleted = s1.deleted := by
  by_cases hids : s.ids.elems = []
  · refine ⟨{ s with exited := true }, ?_, rfl, ?_, rfl, ?_⟩
    · simp [step, hc, he, hd, hids]
    · simp [hids]
    · intro es s2 hrun
      obtain ⟨h1, h2, _⟩ := run_after_exit config growslice es _ s2 rfl hrun
      exact ⟨h1, h2⟩
  · have hlen : s.ids.elems.length ≠ 0 := fun h => hids (List.length_eq_zero.mp h)
    refine ⟨{ s with deleted := s.deleted ++ [s.ids.elems], exited := true }, ?_, rfl, ?_, rfl,
      ?_⟩
    · simp [step, hc, he, hd, hlen, flush_log s.deleted s.ids.elems repoErr hlen]
    · simp [hids]
    · intro es s2 hrun
      obtain ⟨h1, h2, _⟩ := run_after_exit config growslice es _ s2 rfl hrun
      exact ⟨h1, h2⟩

/-- C18 at a concrete input: the drain of `[6]` fails, the task exits all the
same, and id 7, still in the channel, is never flushed: later sends and ticks
add no call. -/
theorem drain_then_stopped_witness :
    ∃ s1 : BannerService,
      step defaultConfig doubling ⟨[7], true, ⟨[6], 5⟩, false, none, []⟩
          (Event.shutdown (some (GoError.other "deadlock detected"))) = some s1
      ∧ s1.exited = true ∧ s1.deleted = [[6]] ∧ s1.deleteChan = [7]
      ∧ ∀ s2 : BannerService,
          run defaultConfig doubling s1 [Event.enqueue 8] = some s2 → s2.deleted = s1.deleted := by
  obtain ⟨s1, h1, h2, h3, h4, h5⟩ :=
    drain_then_stopped defaultConfig doubling ⟨[7], true, ⟨[6], 5⟩, false, none, []⟩
      (some (GoError.other "deadlock detected")) rfl rfl rfl
  exact ⟨s1, h1, h2, by simpa using h3, h4, fun s2 hrun => (h5 _ s2 hrun).2⟩

/-- One round of send, delivery and failed flush leaves a running service with
an empty channel running, with an empty channel and a buffer longer by one. -/
lemma failing_round (growslice : Nat → Nat) (s : BannerService) (rest : List Event)
    (hc : s.crashed = none) (he : s.exited = false) (hq : s.deleteChan = []) :
    ∃ s1 : BannerService,
      run defaultConfig growslice s
          (Event.enqueue 0 :: Event.deliver
            :: Event.tick (some (GoError.other "deadlock detected")) :: rest)
        = run defaultConfig growslice s1 rest
      ∧ s1.crashed = none ∧ s1.exited = false ∧ s1.deleteChan = []
      ∧ s1.ids.elems.length = s.ids.elems.length + 1 := by
  refine ⟨{ s with ids := s.ids.append growslice 0,
                   deleted := s.deleted ++ [(s.ids.append growslice 0).elems] },
    ?_, hc, he, hq, ?_⟩
  · have hlen : (s.ids.append growslice 0).elems.length ≠ 0 := by
      rw [Slice.append_elems]; simp
    simp [run, step, hc, he, hq, defaultConfig, hlen, flush]
  · simp [Slice.append_elems]

/-- After `k` failing rounds from a fresh service the buffer holds `k` ids. -/
lemma failing_rounds_grow (growslice : Nat → Nat) (k : Nat) :
    ∀ s : BannerService, s.crashed = none → s.exited = false → s.deleteChan = [] →
      ∃ s1 : BannerService, run defaultConfig growslice s (failingRounds k) = some s1
        ∧ s1.ids.elems.length = s.ids.elems.length + k := by
  induction k with
  | zero =>
    intro s _ _ _
    exact ⟨s, rfl, rfl⟩
  | succ k ih =>
    intro s hc he hq
    obtain ⟨sm, hrun, hc1, he1, hq1, hlen1⟩ :=
      failing_round growslice s (failingRounds k) hc he hq
    obtain ⟨s1, hrun1, hlen2⟩ := ih sm hc1 he1 hq1
    refine ⟨s1, ?_, ?_⟩
    · simp only [failingRounds]
      rw [hrun, hrun1]
    · rw [hlen2, hlen1]
      omega

/-- C12 (claim as stated fails): under the default configuration no constant
bounds the number of pending ids over all reachable states: after `bound + 1`
rounds of a send, its delivery and a tick whose flush fails, the accumulation
buffer alone holds `bound + 1` ids. -/
theorem pending_ids_unbounded :
    NewService defaultConfig = .ok freshService
      ∧ ¬ ∃ bound : Nat, ∀ (es : List Event) (s : BannerService),
          run defaultConfig doubling freshService es = some s →
          s.deleteChan.length + s.ids.elems.length ≤ bound := by
  refine ⟨rfl, ?_⟩
  rintro ⟨bound, hb⟩
  obtain ⟨s1, hrun, hlen⟩ :=
    failing_rounds_grow doubling (bound + 1) freshService rfl rfl rfl
  have h := hb _ s1 hrun
  rw [hlen] at h
  simp only [freshService, List.length_nil] at h
  omega

/-- A tick whose flush succeeds, or finds nothing to flush, leaves an empty
buffer behind in every state reached from `NewService`. -/
lemma step_tick_success (config : Config) (growslice : Nat → Nat) (s : BannerService)
    (hn : 0 ≤ config.BannerBufferLength) (hcap : config.BannerBufferLength.toNat ≤ s.ids.cap)
    (hc : s.crashed = none) (he : s.exited = false) :
    ∃ s1 : BannerService, step config growslice s (Event.tick none) = some s1
      ∧ s1.ids.elems = [] ∧ s1.deleteChan = s.deleteChan := by
  by_cases hids : s.ids.elems = []
  · exact ⟨s, by simp [step, hc, he, hids], hids, rfl⟩
  · have hlen : s.ids.elems.length ≠ 0 := fun h => hids (List.length_eq_zero.mp h)
    refine ⟨{ s with deleted := s.deleted ++ [s.ids.elems],
                     ids := ⟨[], config.BannerBufferLength.toNat⟩ }, ?_, rfl, rfl⟩
    simp [step, hc, he, hlen, flush, Slice.resetTo_ok s.ids _ hn hcap]

/-- C12 (amended): in every state reached from `NewService` the channel holds
at most `BannerBufferLength` ids, and right after a tick of the running task
whose flush succeeds (or finds the buffer empty) the pending ids, channel plus
buffer, number at most `BannerBufferLength`. -/
theorem queue_bounded_buffer_emptied (config : Config) (growslice : Nat → Nat)
    (s0 s : BannerService) (es : List Event)
    (hnew : NewService config = .ok s0) (hrun : run config growslice s0 es = some s) :
    s.deleteChan.length ≤ config.BannerBufferLength.toNat
      ∧ (s.crashed = none → s.exited = false →
          ∃ s1 : BannerService, step config growslice s (Event.tick none) = some s1
            ∧ s1.deleteChan.length + s1.ids.elems.length
                ≤ config.BannerBufferLength.toNat) := by
  obtain ⟨hn, hq, hcap⟩ := reachable_bounds config growslice s0 s es hnew hrun
  refine ⟨hq, ?_⟩
  intro hc he
  obtain ⟨s1, hstep, hids, hch⟩ := step_tick_success config growslice s hn hcap hc he
  refine ⟨s1, hstep, ?_⟩
  rw [hids, hch]
  simpa using hq

/-- C12 (amended) at a concrete input: two ids in the channel and three in
the buffer; a successful tick leaves two pending ids, within the length 5. -/
theorem queue_bounded_buffer_emptied_witness :
    ∃ s1 : BannerService,
      step defaultConfig doubling ⟨[4, 5], false, ⟨[1, 2, 3], 5⟩, false, none, []⟩
          (Event.tick none) = some s1
      ∧ s1.deleteChan.length + s1.ids.elems.length ≤ defaultConfig.BannerBufferLength.toNat :=
  (queue_bounded_buffer_emptied defaultConfig doubling freshService
    ⟨[4, 5], false, ⟨[1, 2, 3], 5⟩, false, none, []⟩
    [Event.enqueue 1, Event.enqueue 2, Event.enqueue 3, Event.deliver, Event.deliver,
      Event.deliver, Event.enqueue 4, Event.enqueue 5] rfl rfl).2 rfl rfl

/-- In one step, what the background task receives plus what the channel holds
afterwards is what the channel held plus what the step sent. -/
lemma step_received (config : Config) (growslice : Nat → Nat) (s s1 : BannerService)
    (e : Event) (h : step config growslice s e = some s1) :
    stepReceived config growslice s e ++ s1.deleteChan = s.deleteChan ++ accepted [e] := by
  cases e with
  | enqueue id =>
    obtain ⟨extra, hx, hq, _⟩ :=
      step_send_or_deliver config growslice s s1 (Event.enqueue id) rfl h
    simp only [stepReceived, h, hx, List.drop_left]
    exact hq
  | deliver =>
    obtain ⟨extra, hx, hq, _⟩ := step_send_or_deliver config growslice s s1 Event.deliver rfl h
    simp only [stepReceived, h, hx, List.drop_left]
    exact hq
  | stop =>
    simp only [step] at h
    split_ifs at h with h1
    rcases signalShutdown_cases s with h2 | h2
    · rw [h2] at h
      cases h
      simp [stepReceived, accepted]
    · rw [h2] at h
      cases h
      simp [stepReceived, accepted]
  | shutdown repoErr =>
    simp only [step] at h
    split_ifs at h with h1 h2
    · cases h
      simp [stepReceived, accepted]
    · cases h
      simp [stepReceived, accepted]
  | tick repoErr =>
    have hch : s1.deleteChan = s.deleteChan := by
      simp only [step] at h
      split_ifs at h with h1 h2
      · cases h
        rfl
      · cases repoErr with
        | some err =>
          simp only [flush, h2, if_false] at h
          cases h
          rfl
        | none =>
          simp only [flush, h2, if_false] at h
          cases hreset : s.ids.resetTo config.BannerBufferLength with
          | error p =>
            simp only [hreset] at h
            cases h
            rfl
          | ok ids1 =>
            simp only [hreset] at h
            cases h
            rfl
    simp [stepReceived, accepted, hch]

/-- Along every run the ids received by the background task, followed by the
ids still in the channel, are the ids the channel held followed by the ids
sent: the channel drops, duplicates and reorders nothing. -/
lemma run_received (config : Config) (growslice : Nat → Nat) (es : List Event) :
    ∀ (s s1 : BannerService), run config growslice s es = some s1 →
      received config growslice s es ++ s1.deleteChan = s.deleteChan ++ accepted es := by
  induction es with
  | nil =>
    intro s s1 h
    simp only [run] at h
    cases h
    simp [received, accepted]
  | cons e es ih =>
    intro s s1 h
    simp only [run] at h
    cases hstep : step config growslice s e with
    | none => simp [hstep] at h
    | some sm =>
      simp only [hstep] at h
      have h1 := step_received config growslice s sm e hstep
      have h2 := ih sm s1 h
      simp only [received, hstep]
      rw [List.append_assoc, h2, ← List.append_assoc, h1, accepted_cons e es,
        List.append_assoc]

/-- The ids sent by `DeleteBanner` are the ids of the request, in order. -/
lemma accepted_DeleteBannerSends (ids : List Int) : accepted (DeleteBannerSends ids) = ids := by
  induction ids with
  | nil => rfl
  | cons id ids ih =>
    simp only [DeleteBannerSends, List.map_cons, accepted] at ih ⊢
    rw [ih]

/-- C13 (claim as stated fails): with `BannerBufferLength = 0` the channel is
unbuffered, holds no id and has capacity 0, yet a send completes: the id goes
straight into the buffer of the receiving background task. -/
theorem unbuffered_send_completes_example :
    NewService ⟨0⟩ = .ok ⟨[], false, ⟨[], 0⟩, false, none, []⟩
      ∧ step ⟨0⟩ doubling ⟨[], false, ⟨[], 0⟩, false, none, []⟩ (Event.enqueue 1)
          = some ⟨[], false, ⟨[1], 1⟩, false, none, []⟩
      ∧ ¬ (([] : List Int).length < (⟨0⟩ : Config).BannerBufferLength.toNat) := by
  refine ⟨rfl, rfl, by decide⟩

/-- C13 (amended): in every state reached from `NewService` the channel holds
at most `BannerBufferLength` ids; the ids received by the background task so
far, followed by those still in the channel, are exactly the accepted ids in
order; a send completes only when the channel holds fewer ids than
`BannerBufferLength` (the id then joins the channel at its end), or, when
`BannerBufferLength` is 0, when the background task has not exited (the id
then goes straight to the end of its buffer); with a positive length a send
into a full channel cannot complete; and `DeleteBanner` sends each id of the
request once, in request order. -/
theorem queue_backpressure (config : Config) (growslice : Nat → Nat) (s0 s : BannerService)
    (es : List Event)
    (hnew : NewService config = .ok s0) (hrun : run config growslice s0 es = some s) :
    s.deleteChan.length ≤ config.BannerBufferLength.toNat
      ∧ received config growslice s0 es ++ s.deleteChan = accepted es
      ∧ (∀ (id : Int) (s1 : BannerService), step config growslice s (Event.enqueue id) = some s1 →
          (s.deleteChan.length < config.BannerBufferLength.toNat
              ∧ s1.deleteChan = s.deleteChan ++ [id] ∧ s1.ids = s.ids)
            ∨ (config.BannerBufferLength.toNat = 0 ∧ s.exited = false
              ∧ s1.deleteChan = s.deleteChan ∧ s1.ids.elems = s.ids.elems ++ [id]))
      ∧ (∀ id : Int, 0 < config.BannerBufferLength.toNat →
          s.deleteChan.length = config.BannerBufferLength.toNat →
          step config growslice s (Event.enqueue id) = none)
      ∧ (∀ ids : List Int, accepted (DeleteBannerSends ids) = ids
          ∧ (DeleteBannerSends ids).length = ids.length) := by
  obtain ⟨_, hq, _⟩ := reachable_bounds config growslice s0 s es hnew hrun
  have hs0 := NewService_ok config s0 hnew
  refine ⟨hq, ?_, ?_, ?_, ?_⟩
  · have h := run_received config growslice es s0 s hrun
    rw [hs0] at h ⊢
    simpa using h
  · intro id s1 hstep
    simp only [step] at hstep
    split_ifs at hstep with h1 h2 h3
    · cases hstep
      exact Or.inl ⟨h2, rfl, rfl⟩
    · cases hstep
      exact Or.inr ⟨h3.1, h3.2.2, rfl, Slice.append_elems _ _ _⟩
  · intro id hpos hfull
    have h2 : ¬ s.deleteChan.length < config.BannerBufferLength.toNat := by omega
    have h3 : ¬ config.BannerBufferLength.toNat = 0 := by omega
    simp [step, h2, h3]
  · intro ids
    exact ⟨accepted_DeleteBannerSends ids, by simp [DeleteBannerSends]⟩

/-- C13 (amended) at a concrete input: with `BannerBufferLength = 1` and id 1
in the channel, the send of id 2 cannot complete; once id 1 has been received
it can. -/
theorem queue_backpressure_witness :
    step ⟨1⟩ doubling ⟨[1], false, ⟨[], 1⟩, false, none, []⟩ (Event.enqueue 2) = none
      ∧ run ⟨1⟩ doubling ⟨[1], false, ⟨[], 1⟩, false, none, []⟩
          [Event.deliver, Event.enqueue 2]
        = some ⟨[2], false, ⟨[1], 1⟩, false, none, []⟩ :=
  ⟨(queue_backpressure ⟨1⟩ doubling ⟨[], false, ⟨[], 1⟩, false, none, []⟩
      ⟨[1], false, ⟨[], 1⟩, false, none, []⟩ [Event.enqueue 1] rfl rfl).2.2.2.1 2
      (by decide) rfl,
    rfl⟩

/-! ## The write paths -/

/-- A run of statements that reports no error has sent them all, one store
operation each, and its view is the store after all of them. -/
lemma execAll_success (faults : Nat → Option GoError) (stmts : List Stmt) :
    ∀ (ops : Nat) (work work1 : Store) (ops1 : Nat) (sent : List Stmt),
      execAll faults ops work stmts = (none, work1, ops1, sent) →
      work1 = stmts.foldl Stmt.apply work ∧ ops1 = ops + stmts.length ∧ sent = stmts := by
  induction stmts with
  | nil =>
    intro ops work work1 ops1 sent h
    simp only [execAll, Prod.mk.injEq] at h
    obtain ⟨_, h1, h2, h3⟩ := h
    exact ⟨h1.symm, by simp [h2.symm], h3.symm⟩
  | cons st rest ih =>
    intro ops work work1 ops1 sent h
    simp only [execAll] at h
    cases hf : faults ops with
    | some err => simp [hf] at h
    | none =>
      simp only [hf] at h
      rcases hrest : execAll faults (ops + 1) (st.apply work) rest with ⟨e2, w2, o2, s2⟩
      simp only [hrest, Prod.mk.injEq] at h
      obtain ⟨h0, h1, h2, h3⟩ := h
      subst h0
      obtain ⟨i1, i2, i3⟩ := ih (ops + 1) (st.apply work) w2 o2 s2 hrest
      refine ⟨?_, ?_, ?_⟩
      · rw [← h1, i1]; rfl
      · rw [← h2, i2, List.length_cons]; omega
      · rw [← h3, i3]

/-- Without faults every statement is sent and applied. -/
lemma execAll_noFaults (stmts : List Stmt) :
    ∀ (ops : Nat) (work : Store),
      execAll noFaults ops work stmts
        = (none, stmts.foldl Stmt.apply work, ops + stmts.length, stmts) := by
  induction stmts with
  | nil => intro ops work; rfl
  | cons st rest ih =>
    intro ops work
    simp only [execAll, noFaults]
    have h := ih (ops + 1) (st.apply work)
    simp only [noFaults] at h
    rw [h]
    simp only [List.foldl_cons, List.length_cons, Prod.mk.injEq, true_and, and_true]
    omega

/-- An overwrite keeps the identity and the banner of a row. -/
lemma setTag_keeps (TagID BannerID ID : Int) (row : BannerTag) :
    (setTag TagID BannerID ID row).ID = row.ID
      ∧ (setTag TagID BannerID ID row).BannerID = row.BannerID := by
  unfold setTag
  split <;> exact ⟨rfl, rfl⟩

/-- A sequence of overwrites keeps the identity and the banner of a row. -/
lemma overwriteRows_keeps (id : Int) (cur : List BannerTag) :
    ∀ (vals : List Int) (row : BannerTag),
      (overwriteRows id cur vals row).ID = row.ID
        ∧ (overwriteRows id cur vals row).BannerID = row.BannerID := by
  induction cur with
  | nil => intro vals row; exact ⟨rfl, rfl⟩
  | cons c cs ih =>
    intro vals row
    cases vals with
    | nil => exact ⟨rfl, rfl⟩
    | cons v vs =>
      simp only [overwriteRows]
      obtain ⟨h1, h2⟩ := ih vs (setTag v id c.ID row)
      obtain ⟨h3, h4⟩ := setTag_keeps v id c.ID row
      exact ⟨h1.trans h3, h2.trans h4⟩

/-- Overwrites addressed to other identities leave a row as it is. -/
lemma overwriteRows_other_row (id : Int) (cur : List BannerTag) :
    ∀ (vals : List Int) (row : BannerTag), row.ID ∉ cur.map BannerTag.ID →
      overwriteRows id cur vals row = row := by
  induction cur with
  | nil => intro vals row _; rfl
  | cons c cs ih =>
    intro vals row hnot
    cases vals with
    | nil => rfl
    | cons v vs =>
      simp only [List.map_cons, List.mem_cons, not_or] at hnot
      simp only [overwriteRows]
      have h1 : setTag v id c.ID row = row := by
        unfold setTag
        simp [hnot.1]
      rw [h1]
      exact ih vs row hnot.2

/-- Overwrites for banner `id` leave the rows of other banners as they are. -/
lemma overwriteRows_other_banner (id : Int) (cur : List BannerTag) :
    ∀ (vals : List Int) (row : BannerTag), row.BannerID ≠ id →
      overwriteRows id cur vals row = row := by
  induction cur with
  | nil => intro vals row _; rfl
  | cons c cs ih =>
    intro vals row hne
    cases vals with
    | nil => rfl
    | cons v vs =>
      simp only [overwriteRows]
      have h1 : setTag v id c.ID row = row := by
        unfold setTag
        simp [hne]
      rw [h1]
      exact ih vs row hne

/-- Rows of banner `id` with pairwise distinct identities, overwritten
position by position with as many values, carry exactly those values. -/
lemma overwriteRows_tagIDs (id : Int) (cur : List BannerTag) :
    ∀ (vals : List Int), (∀ c ∈ cur, c.BannerID = id) → (cur.map BannerTag.ID).Nodup →
      vals.length = cur.length →
      cur.map (fun row => (overwriteRows id cur vals row).TagID) = vals := by
  induction cur with
  | nil =>
    intro vals _ _ hlen
    simp only [List.length_nil] at hlen
    rw [List.length_eq_zero.mp hlen]
    rfl
  | cons c cs ih =>
    intro vals hb hnd hlen
    cases vals with
    | nil => simp at hlen
    | cons v vs =>
      simp only [List.map_cons, List.nodup_cons] at hnd
      simp only [List.length_cons, add_left_inj] at hlen
      have hbc : c.BannerID = id := hb c (List.mem_cons_self _ _)
      have hbs : ∀ x ∈ cs, x.BannerID = id := fun x hx => hb x (List.mem_cons_of_mem _ hx)
      simp only [List.map_cons, overwriteRows]
      congr 1
      · have h1 : setTag v id c.ID c = { c with TagID := v } := by
          unfold setTag
          simp [hbc]
        rw [h1, overwriteRows_other_row id cs vs { c with TagID := v } hnd.1]
      · refine Eq.trans ?_ (ih vs hbs hnd.2 hlen)
        apply List.map_congr_left
        intro x hx
        have hxid : x.ID ≠ c.ID := by
          intro heq
          apply hnd.1
          rw [← heq]
          exact List.mem_map_of_mem _ hx
        have h1 : setTag v id c.ID x = x := by
          unfold setTag
          simp [hxid]
        rw [h1]

/-- The overwrite statements of a reconciliation, applied in order, map every
row of the association table through `overwriteRows` and touch nothing else. -/
lemma foldl_overwrites (id : Int) (cur : List BannerTag) :
    ∀ (vals : List Int) (db : Store),
      (List.zipWith (fun (row : BannerTag) (v : Int) => Stmt.UpdateBannerTagByID v id row.ID)
          cur vals).foldl Stmt.apply db
        = { db with tags := db.tags.map (overwriteRows id cur vals) } := by
  induction cur with
  | nil =>
    intro vals db
    simp only [List.zipWith_nil_left, List.foldl_nil]
    have h : overwriteRows id [] vals = fun row => row := by
      funext row
      cases vals <;> rfl
    rw [h]
    simp
  | cons c cs ih =>
    intro vals db
    cases vals with
    | nil =>
      simp only [List.zipWith_nil_right, List.foldl_nil]
      have h : overwriteRows id (c :: cs) [] = fun row => row := by
        funext row
        rfl
      rw [h]
      simp
    | cons v vs =>
      simp only [List.zipWith_cons_cons, List.foldl_cons]
      rw [ih vs]
      simp only [Stmt.apply, List.map_map]
      rfl

/-- The creation statements of a reconciliation, applied in order, append one
row per tag id, each for banner `id`, and touch nothing else. -/
lemma foldl_creates (id : Int) (ts : List Int) :
    ∀ db : Store, ∃ fresh : List BannerTag,
      (ts.map (fun t => Stmt.CreateTag t id)).foldl Stmt.apply db
          = { db with tags := db.tags ++ fresh }
        ∧ fresh.map BannerTag.TagID = ts ∧ (∀ row ∈ fresh, row.BannerID = id) := by
  induction ts with
  | nil =>
    intro db
    exact ⟨[], by simp, rfl, by simp⟩
  | cons t ts ih =>
    intro db
    obtain ⟨fresh, h1, h2, h3⟩ := ih (Stmt.apply db (Stmt.CreateTag t id))
    refine ⟨⟨nextTagRowID db, id, t⟩ :: fresh, ?_, ?_, ?_⟩
    · simp only [List.map_cons, List.foldl_cons]
      rw [h1]
      simp [Stmt.apply]
    · simp [h2]
    · intro row hrow
      rcases List.mem_cons.mp hrow with h | h
      · rw [h]
      · exact h3 row h

/-- With a shorter target the `switch` sends one overwrite per existing row,
in row order: the target ids first, then the sentinel `-1` for the surplus
rows. -/
lemma reconcileStmts_shorter (cur : List BannerTag) (id : Int) (tags : List Int)
    (h : tags.length < cur.length) :
    reconcileStmts cur id tags
      = List.zipWith (fun (row : BannerTag) (v : Int) => Stmt.UpdateBannerTagByID v id row.ID) cur
          (tags ++ List.replicate (cur.length - tags.length) (-1)) := by
  have h1 : ¬ cur.length = tags.length := by omega
  have h2 : ¬ cur.length < tags.length := by omega
  simp only [reconcileStmts, h1, h2, if_false]
  apply List.ext_getElem
  · simp
    omega
  · intro i hi1 hi2
    simp only [List.length_map, List.length_range] at hi1
    simp only [List.getElem_map, List.getElem_range, List.getElem_zipWith]
    rw [List.getD_eq_getElem _ _ hi1]
    by_cases hi : i < tags.length
    · simp only [hi, if_true]
      rw [List.getD_eq_getElem _ _ hi, List.getElem_append_left hi]
    · simp only [hi, if_false]
      rw [List.getElem_append_right (by omega)]
      simp

/-- With a target at least as long the `switch` sends one overwrite per
existing row, in row order, and then one creation per surplus target id. -/
lemma reconcileStmts_longer (cur : List BannerTag) (id : Int) (tags : List Int)
    (h : cur.length ≤ tags.length) :
    reconcileStmts cur id tags
      = List.zipWith (fun (row : BannerTag) (v : Int) => Stmt.UpdateBannerTagByID v id row.ID) cur
          (tags.take cur.length)
        ++ (tags.drop cur.length).map (fun t => Stmt.CreateTag t id) := by
  have hshape : reconcileStmts cur id tags
      = (List.range tags.length).map (fun i =>
          if i < cur.length then
            Stmt.UpdateBannerTagByID (tags.getD i 0) id (cur.getD i ⟨0, 0, 0⟩).ID
          else Stmt.CreateTag (tags.getD i 0) id) := by
    by_cases heq : cur.length = tags.length
    · simp only [reconcileStmts, heq, if_true]
      apply List.map_congr_left
      intro i hi
      rw [List.mem_range] at hi
      simp only [hi, if_true]
    · have hlt : cur.length < tags.length := by omega
      simp only [reconcileStmts, heq, hlt, if_true, if_false]
  rw [hshape]
  apply List.ext_getElem
  · simp
    omega
  · intro i hi1 hi2
    simp only [List.length_map, List.length_range] at hi1
    simp only [List.getElem_map, List.getElem_range]
    rw [List.getD_eq_getElem _ _ hi1]
    by_cases hc : i < cur.length
    · rw [List.getElem_append_left (by simp; omega)]
      simp only [hc, if_true, List.getElem_zipWith, List.getElem_take]
      rw [List.getD_eq_getElem _ _ hc]
    · rw [List.getElem_append_right (by simp; omega)]
      simp only [hc, if_false, List.getElem_map, List.getElem_drop]
      congr 2
      simp
      omega

/-- The rows of a banner have pairwise distinct identities when the table
has, and all belong to the banner. -/
lemma GetTagsByBannerID_rows (db : Store) (id : Int)
    (hkey : (db.tags.map BannerTag.ID).Nodup) :
    (∀ c ∈ GetTagsByBannerID db id, c.BannerID = id)
      ∧ ((GetTagsByBannerID db id).map BannerTag.ID).Nodup := by
  constructor
  · intro c hc
    simp only [GetTagsByBannerID, List.mem_filter, decide_eq_true_eq] at hc
    exact hc.2
  · exact List.Nodup.sublist (List.Sublist.map _ (List.filter_sublist _)) hkey

/-- The association table after the overwrites that pair the rows of banner
`id` with as many tag ids: the banner's rows carry those ids, every row keeps
its identity and banner, and the rows of other banners are untouched. -/
lemma table_after_overwrites (db : Store) (id : Int) (vals : List Int)
    (hkey : (db.tags.map BannerTag.ID).Nodup)
    (hlen : vals.length = (GetTagsByBannerID db id).length) :
    (db.tags.map (overwriteRows id (GetTagsByBannerID db id) vals)).filter
        (fun row => row.BannerID = id)
        = (GetTagsByBannerID db id).map (overwriteRows id (GetTagsByBannerID db id) vals)
      ∧ ((GetTagsByBannerID db id).map
          (overwriteRows id (GetTagsByBannerID db id) vals)).map BannerTag.TagID = vals
      ∧ ((GetTagsByBannerID db id).map
          (overwriteRows id (GetTagsByBannerID db id) vals)).map BannerTag.ID
          = (GetTagsByBannerID db id).map BannerTag.ID
      ∧ (db.tags.map (overwriteRows id (GetTagsByBannerID db id) vals)).map BannerTag.ID
          = db.tags.map BannerTag.ID
      ∧ (db.tags.map (overwriteRows id (GetTagsByBannerID db id) vals)).map BannerTag.BannerID
          = db.tags.map BannerTag.BannerID
      ∧ (db.tags.map (overwriteRows id (GetTagsByBannerID db id) vals)).filter
          (fun row => row.BannerID ≠ id)
          = db.tags.filter (fun row => row.BannerID ≠ id) := by
  obtain ⟨hb, hnd⟩ := GetTagsByBannerID_rows db id hkey
  refine ⟨?_, ?_, ?_, ?_, ?_, ?_⟩
  · rw [List.filter_map]
    congr 1
    unfold GetTagsByBannerID
    congr 1
    funext row
    simp [(overwriteRows_keeps id _ vals row).2]
  · rw [List.map_map]
    exact overwriteRows_tagIDs id _ vals hb hnd hlen
  · rw [List.map_map]
    apply List.map_congr_left
    intro row _
    exact (overwriteRows_keeps id _ vals row).1
  · rw [List.map_map]
    apply List.map_congr_left
    intro row _
    exact (overwriteRows_keeps id _ vals row).1
  · rw [List.map_map]
    apply List.map_congr_left
    intro row _
    exact (overwriteRows_keeps id _ vals row).2
  · rw [List.filter_map]
    have hfun : ((fun row : BannerTag => decide (row.BannerID ≠ id))
        ∘ overwriteRows id (GetTagsByBannerID db id) vals)
        = fun row : BannerTag => decide (row.BannerID ≠ id) := by
      funext row
      simp [(overwriteRows_keeps id _ vals row).2]
    rw [hfun]
    conv_rhs => rw [← List.map_id (db.tags.filter (fun row => row.BannerID ≠ id))]
    apply List.map_congr_left
    intro row hrow
    simp only [List.mem_filter, decide_eq_true_eq] at hrow
    simp [overwriteRows_other_banner id _ vals row hrow.2]

/-- A call of `UpdateBannerTagByID` that returns no error has sent every
statement of the `switch` and committed the store they lead to. -/
lemma UpdateBannerTagByID_success (faults : Nat → Option GoError) (db : Store) (id : Int)
    (tags : List Int) (hok : (UpdateBannerTagByID faults db id tags).err = none) :
    UpdateBannerTagByID faults db id tags
      = ⟨none, (reconcileStmts (GetTagsByBannerID db id) id tags).foldl Stmt.apply db,
          reconcileStmts (GetTagsByBannerID db id) id tags⟩ := by
  unfold UpdateBannerTagByID at hok ⊢
  cases h0 : faults 0 with
  | some e => simp [h0] at hok
  | none =>
    cases h1 : faults 1 with
    | some e => simp [h0, h1] at hok
    | none =>
      simp only [h0, h1] at hok ⊢
      rcases hex : execAll faults 2 db (reconcileStmts (GetTagsByBannerID db id) id tags)
        with ⟨e, w, o, sent⟩
      cases e with
      | some err => simp [hex] at hok
      | none =>
        simp only [hex] at hok ⊢
        obtain ⟨hw, _, hs⟩ := execAll_success faults _ _ _ _ _ _ hex
        cases hc : faults o with
        | some err => simp [hc] at hok
        | none => simp [hw, hs]

/-- C14: on a table with pairwise distinct row identities, when the banner has
`n` associations and the target has `m < n` tag ids, a call that returns no
error has overwritten the tag ids of the banner's associations, read in
order, to the target ids followed by `n - m` times the sentinel `-1`; it sent
`n` statements, all of them overwrites (no creation, no deletion); every row
of the table kept its identity and its banner, and the rows of other banners
and the banner table are unchanged. -/
theorem reconcile_target_shorter (faults : Nat → Option GoError) (db : Store) (id : Int)
    (tags : List Int)
    (hkey : (db.tags.map BannerTag.ID).Nodup)
    (hlt : tags.length < (GetTagsByBannerID db id).length)
    (hok : (UpdateBannerTagByID faults db id tags).err = none) :
    (GetTagsByBannerID (UpdateBannerTagByID faults db id tags).committed id).map BannerTag.TagID
        = tags ++ List.replicate ((GetTagsByBannerID db id).length - tags.length) (-1)
      ∧ (GetTagsByBannerID (UpdateBannerTagByID faults db id tags).committed id).map BannerTag.ID
          = (GetTagsByBannerID db id).map BannerTag.ID
      ∧ (UpdateBannerTagByID faults db id tags).committed.tags.map BannerTag.ID
          = db.tags.map BannerTag.ID
      ∧ (UpdateBannerTagByID faults db id tags).committed.tags.map BannerTag.BannerID
          = db.tags.map BannerTag.BannerID
      ∧ (UpdateBannerTagByID faults db id tags).committed.tags.filter
            (fun row => row.BannerID ≠ id)
          = db.tags.filter (fun row => row.BannerID ≠ id)
      ∧ (UpdateBannerTagByID faults db id tags).committed.banners = db.banners
      ∧ (UpdateBannerTagByID faults db id tags).issued.length = (GetTagsByBannerID db id).length
      ∧ (∀ st ∈ (UpdateBannerTagByID faults db id tags).issued, st.isUpdateBannerTag = true) := by
  have hlen : (tags ++ List.replicate ((GetTagsByBannerID db id).length - tags.length)
      (-1 : Int)).length = (GetTagsByBannerID db id).length := by
    simp only [List.length_append, List.length_replicate]
    omega
  obtain ⟨t1, t2, t3, t4, t5, t6⟩ := table_after_overwrites db id _ hkey hlen
  rw [UpdateBannerTagByID_success faults db id tags hok,
    reconcileStmts_shorter _ id tags hlt, foldl_overwrites]
  refine ⟨?_, ?_, t4, t5, t6, rfl, ?_, ?_⟩
  · simp only [GetTagsByBannerID] at t1 t2 ⊢
    rw [t1]
    exact t2
  · simp only [GetTagsByBannerID] at t1 t3 ⊢
    rw [t1]
    exact t3
  · simp only [List.length_zipWith, hlen, min_self]
  · intro st hst
    obtain ⟨i, hi, rfl⟩ := List.getElem_of_mem hst
    simp [Stmt.isUpdateBannerTag]

/-- C14 at a concrete input: banner 7 with tags 1, 2, 3 updated to 9, 9: its
three rows 10, 12, 13 now carry 9, 9, -1, and banner 8 keeps its row. -/
theorem reconcile_target_shorter_witness :
    (GetTagsByBannerID (UpdateBannerTagByID noFaults sampleStore 7 [9, 9]).committed 7).map
        BannerTag.TagID = [9, 9, -1]
      ∧ (GetTagsByBannerID (UpdateBannerTagByID noFaults sampleStore 7 [9, 9]).committed 7).map
          BannerTag.ID = [10, 12, 13]
      ∧ (UpdateBannerTagByID noFaults sampleStore 7 [9, 9]).committed.tags.map BannerTag.ID
          = [10, 11, 12, 13] :=
  ⟨(reconcile_target_shorter noFaults sampleStore 7 [9, 9] (by decide) (by decide) rfl).1,
    (reconcile_target_shorter noFaults sampleStore 7 [9, 9] (by decide) (by decide) rfl).2.1,
    (reconcile_target_shorter noFaults sampleStore 7 [9, 9] (by decide) (by decide) rfl).2.2.1⟩

/-- C15: on a table with pairwise distinct row identities, when the banner has
`n` associations and the target has `m ≥ n` tag ids, a call that returns no
error sent one overwrite per existing association, in order, with the first
`n` target ids, and then one creation per remaining target id, in order
(`m - n` of them, none when `m = n`); the rows that existed keep their place,
identity and banner, `m - n` rows are appended, and the banner's tag ids read
in order are exactly the target list. -/
theorem reconcile_target_longer (faults : Nat → Option GoError) (db : Store) (id : Int)
    (tags : List Int)
    (hkey : (db.tags.map BannerTag.ID).Nodup)
    (hge : (GetTagsByBannerID db id).length ≤ tags.length)
    (hok : (UpdateBannerTagByID faults db id tags).err = none) :
    (GetTagsByBannerID (UpdateBannerTagByID faults db id tags).committed id).map BannerTag.TagID
        = tags
      ∧ ((GetTagsByBannerID (UpdateBannerTagByID faults db id tags).committed id).take
            (GetTagsByBannerID db id).length).map BannerTag.ID
          = (GetTagsByBannerID db id).map BannerTag.ID
      ∧ ((UpdateBannerTagByID faults db id tags).committed.tags.take db.tags.length).map
            BannerTag.ID = db.tags.map BannerTag.ID
      ∧ ((UpdateBannerTagByID faults db id tags).committed.tags.take db.tags.length).map
            BannerTag.BannerID = db.tags.map BannerTag.BannerID
      ∧ (UpdateBannerTagByID faults db id tags).committed.tags.length
          = db.tags.length + (tags.length - (GetTagsByBannerID db id).length)
      ∧ (UpdateBannerTagByID faults db id tags).committed.banners = db.banners
      ∧ (UpdateBannerTagByID faults db id tags).issued
          = List.zipWith
              (fun (row : BannerTag) (v : Int) => Stmt.UpdateBannerTagByID v id row.ID)
              (GetTagsByBannerID db id) (tags.take (GetTagsByBannerID db id).length)
            ++ (tags.drop (GetTagsByBannerID db id).length).map
                (fun t => Stmt.CreateTag t id)
      ∧ (UpdateBannerTagByID faults db id tags).issued.countP Stmt.isCreateTag
          = tags.length - (GetTagsByBannerID db id).length := by
  have hlen : (tags.take (GetTagsByBannerID db id).length).length
      = (GetTagsByBannerID db id).length := by
    simp only [List.length_take]
    omega
  obtain ⟨t1, t2, t3, t4, t5, _⟩ := table_after_overwrites db id _ hkey hlen
  obtain ⟨fresh, hf1, hf2, hf3⟩ :=
    foldl_creates id (tags.drop (GetTagsByBannerID db id).length)
      { db with tags := db.tags.map (overwriteRows id (GetTagsByBannerID db id)
          (tags.take (GetTagsByBannerID db id).length)) }
  have hfl : fresh.length = tags.length - (GetTagsByBannerID db id).length := by
    have := congrArg List.length hf2
    simpa using this
  have hcomm : (UpdateBannerTagByID faults db id tags).committed
      = { db with tags := db.tags.map (overwriteRows id (GetTagsByBannerID db id)
            (tags.take (GetTagsByBannerID db id).length)) ++ fresh } := by
    rw [UpdateBannerTagByID_success faults db id tags hok,
      reconcileStmts_longer _ id tags hge, List.foldl_append, foldl_overwrites, hf1]
  have hissued : (UpdateBannerTagByID faults db id tags).issued
      = List.zipWith
          (fun (row : BannerTag) (v : Int) => Stmt.UpdateBannerTagByID v id row.ID)
          (GetTagsByBannerID db id) (tags.take (GetTagsByBannerID db id).length)
        ++ (tags.drop (GetTagsByBannerID db id).length).map
            (fun t => Stmt.CreateTag t id) := by
    rw [UpdateBannerTagByID_success faults db id tags hok,
      reconcileStmts_longer _ id tags hge]
  have hfilter : GetTagsByBannerID (UpdateBannerTagByID faults db id tags).committed id
      = (GetTagsByBannerID db id).map (overwriteRows id (GetTagsByBannerID db id)
          (tags.take (GetTagsByBannerID db id).length)) ++ fresh := by
    rw [hcomm]
    simp only [GetTagsByBannerID, List.filter_append] at t1 ⊢
    rw [t1]
    congr 1
    rw [List.filter_eq_self]
    intro row hrow
    simp [hf3 row hrow]
  refine ⟨?_, ?_, ?_, ?_, ?_, ?_, hissued, ?_⟩
  · rw [hfilter, List.map_append, t2, hf2, List.take_append_drop]
  · rw [hfilter, List.take_left' (by simp), t3]
  · rw [hcomm]
    simp only
    rw [List.take_left' (by simp), t4]
  · rw [hcomm]
    simp only
    rw [List.take_left' (by simp), t5]
  · rw [hcomm]
    simp only [List.length_append, List.length_map, hfl]
  · rw [hcomm]
  · rw [hissued, List.countP_append]
    have h1 : List.countP Stmt.isCreateTag
        (List.zipWith (fun (row : BannerTag) (v : Int) => Stmt.UpdateBannerTagByID v id row.ID)
          (GetTagsByBannerID db id) (tags.take (GetTagsByBannerID db id).length)) = 0 := by
      rw [List.countP_eq_zero]
      intro st hst
      obtain ⟨i, hi, rfl⟩ := List.getElem_of_mem hst
      simp [Stmt.isCreateTag]
    have h2 : List.countP Stmt.isCreateTag
        ((tags.drop (GetTagsByBannerID db id).length).map (fun t => Stmt.CreateTag t id))
        = (tags.drop (GetTagsByBannerID db id).length).length := by
      refine Eq.trans (List.countP_eq_length.mpr ?_) (List.length_map _ _)
      intro st hst
      obtain ⟨t, _, rfl⟩ := List.mem_map.mp hst
      rfl
    rw [h1, h2, List.length_drop]
    omega

/-- C15 at a concrete input: banner 7 with tags 1, 2, 3 updated to
9, 8, 7, 6, 5: two rows are created and the banner reads 9, 8, 7, 6, 5. -/
theorem reconcile_target_longer_witness :
    (GetTagsByBannerID (UpdateBannerTagByID noFaults sampleStore 7 [9, 8, 7, 6, 5]).committed
        7).map BannerTag.TagID = [9, 8, 7, 6, 5]
      ∧ (UpdateBannerTagByID noFaults sampleStore 7 [9, 8, 7, 6, 5]).issued.countP
          Stmt.isCreateTag = 2 :=
  ⟨(reconcile_target_longer noFaults sampleStore 7 [9, 8, 7, 6, 5] (by decide) (by decide)
      rfl).1,
    (reconcile_target_longer noFaults sampleStore 7 [9, 8, 7, 6, 5] (by decide) (by decide)
      rfl).2.2.2.2.2.2.2⟩

/-- C16: whichever store operation of `UpdateBannerTagByID` fails (the begin,
the read of the current associations, any overwrite, any creation or the
commit), a call that returns an error leaves the committed store exactly as
it was before the call; in particular the banner's associations are the same
rows as before. -/
theorem reconcile_atomic (faults : Nat → Option GoError) (db : Store) (id : Int)
    (tags : List Int) (herr : (UpdateBannerTagByID faults db id tags).err ≠ none) :
    (UpdateBannerTagByID faults db id tags).committed = db
      ∧ GetTagsByBannerID (UpdateBannerTagByID faults db id tags).committed id
          = GetTagsByBannerID db id := by
  have hcomm : (UpdateBannerTagByID faults db id tags).committed = db := by
    unfold UpdateBannerTagByID at herr ⊢
    cases h0 : faults 0 with
    | some e => simp [h0]
    | none =>
      cases h1 : faults 1 with
      | some e => simp [h0, h1]
      | none =>
        simp only [h0, h1] at herr ⊢
        rcases hex : execAll faults 2 db (reconcileStmts (GetTagsByBannerID db id) id tags)
          with ⟨e, w, o, sent⟩
        cases e with
        | some err => simp [hex]
        | none =>
          simp only [hex] at herr ⊢
          cases hc : faults o with
          | some err => simp [hc]
          | none => simp [hc] at herr
  exact ⟨hcomm, by rw [hcomm]⟩

/-- C16 at a concrete input: the second overwrite of an update of banner 7 to
9, 8, 7, 6, 5 fails; the store is as before, the first overwrite included. -/
theorem reconcile_atomic_witness :
    (UpdateBannerTagByID (faultAt 3) sampleStore 7 [9, 8, 7, 6, 5]).issued
        = [Stmt.UpdateBannerTagByID 9 7 10, Stmt.UpdateBannerTagByID 8 7 12]
      ∧ (UpdateBannerTagByID (faultAt 3) sampleStore 7 [9, 8, 7, 6, 5]).committed = sampleStore :=
  ⟨rfl, (reconcile_atomic (faultAt 3) sampleStore 7 [9, 8, 7, 6, 5] (by decide)).1⟩

/-- Deleting the banners of a list one after another leaves exactly the
banners whose identity is not in the list. -/
lemma foldl_deletes (ids : List Int) :
    ∀ db : Store,
      ((ids.map Stmt.DeleteBannerByID).foldl Stmt.apply db).banners
          = db.banners.filter (fun b => b.ID ∉ ids)
        ∧ ((ids.map Stmt.DeleteBannerByID).foldl Stmt.apply db).tags = db.tags := by
  induction ids with
  | nil =>
    intro db
    simp
  | cons id ids ih =>
    intro db
    obtain ⟨h1, h2⟩ := ih (Stmt.apply db (Stmt.DeleteBannerByID id))
    simp only [List.map_cons, List.foldl_cons]
    refine ⟨?_, ?_⟩
    · rw [h1]
      simp only [Stmt.apply, List.filter_filter]
      apply List.filter_congr
      intro b _
      simp only [List.mem_cons, not_or]
      by_cases hb : b.ID = id <;> by_cases hm : b.ID ∈ ids <;> simp [hb, hm]
    · rw [h2]
      rfl

/-- C19: a call of `DeleteBannersByID` that returns an error (from the begin,
from any single delete or from the commit) leaves the committed store exactly
as it was, so none of the listed banners is deleted; a call that returns no
error has sent one delete per listed id, in list order, and committed their
joint effect: no banner with a listed identity is left. -/
theorem bulk_delete_all_or_nothing (faults : Nat → Option GoError) (db : Store)
    (ids : List Int) :
    ((DeleteBannersByID faults db ids).err ≠ none →
        (DeleteBannersByID faults db ids).committed = db)
      ∧ ((DeleteBannersByID faults db ids).err = none →
        (DeleteBannersByID faults db ids).issued = ids.map Stmt.DeleteBannerByID
        ∧ (DeleteBannersByID faults db ids).committed
            = (ids.map Stmt.DeleteBannerByID).foldl Stmt.apply db
        ∧ (DeleteBannersByID faults db ids).committed.banners
            = db.banners.filter (fun b => b.ID ∉ ids)) := by
  unfold DeleteBannersByID
  cases h0 : faults 0 with
  | some e => simp
  | none =>
    simp only
    rcases hex : execAll faults 1 db (ids.map Stmt.DeleteBannerByID) with ⟨e, w, o, sent⟩
    cases e with
    | some err => simp
    | none =>
      simp only
      obtain ⟨hw, _, hs⟩ := execAll_success faults _ _ _ _ _ _ hex
      cases hc : faults o with
      | some err => simp
      | none =>
        simp only [ne_eq, not_true_eq_false, false_implies, true_and, forall_true_left]
        refine ⟨hs, hw, ?_⟩
        rw [hw]
        exact (foldl_deletes ids db).1

/-- C19 at a concrete input: deleting banners 7 and 8 with a failing second
delete leaves both banners; without a failure both are gone. -/
theorem bulk_delete_all_or_nothing_witness :
    (DeleteBannersByID (faultAt 2) sampleStore [7, 8]).committed = sampleStore
      ∧ (DeleteBannersByID noFaults sampleStore [7, 8]).issued
          = [Stmt.DeleteBannerByID 7, Stmt.DeleteBannerByID 8]
      ∧ (DeleteBannersByID noFaults sampleStore [7, 8]).committed.banners = [] :=
  ⟨(bulk_delete_all_or_nothing (faultAt 2) sampleStore [7, 8]).1 (by decide),
    ((bulk_delete_all_or_nothing noFaults sampleStore [7, 8]).2 rfl).1,
    rfl⟩

/-! ## Content validation -/

/-- A value under a key is a string, or the type assertion on it fails. -/
lemma assertString_cases (v : Option JsonValue) :
    (∃ s : String, v = some (JsonValue.string s))
      ∨ (assertString v = none
        ∧ (match v with
            | some (JsonValue.string _) => false
            | _ => true) = true) := by
  rcases v with _ | v
  · exact Or.inr ⟨rfl, rfl⟩
  · cases v with
    | string s => exact Or.inl ⟨s, rfl⟩
    | null => exact Or.inr ⟨rfl, rfl⟩
    | bool b => exact Or.inr ⟨rfl, rfl⟩
    | number n => exact Or.inr ⟨rfl, rfl⟩
    | array => exact Or.inr ⟨rfl, rfl⟩
    | object => exact Or.inr ⟨rfl, rfl⟩

/-- The type assertion on a string yields the string itself. -/
lemma assertString_string (s : String) : assertString (some (JsonValue.string s)) = some s :=
  rfl

/-- The validation loop fails on the first field, in the order title, text,
url, that is absent or not a string, naming it; otherwise it collects the
three strings as they are. -/
lemma collectStrings_fields (c : Content) :
    (∀ f : String, firstInvalidField c = some f →
        collectStrings c ["title", "text", "url"] [] = .error ⟨f⟩)
      ∧ (firstInvalidField c = none →
        ∃ t x u : String, c "title" = some (JsonValue.string t)
          ∧ c "text" = some (JsonValue.string x) ∧ c "url" = some (JsonValue.string u)
          ∧ collectStrings c ["title", "text", "url"] []
              = .ok [("title", t), ("text", x), ("url", u)]) := by
  rcases assertString_cases (c "title") with ⟨t, ht⟩ | ⟨ht1, ht2⟩
  · rcases assertString_cases (c "text") with ⟨x, hx⟩ | ⟨hx1, hx2⟩
    · rcases assertString_cases (c "url") with ⟨u, hu⟩ | ⟨hu1, hu2⟩
      · refine ⟨?_, ?_⟩
        · intro f hf
          simp [firstInvalidField, List.find?, ht, hx, hu] at hf
        · intro _
          exact ⟨t, x, u, ht, hx, hu, by simp [collectStrings, ht, hx, hu, assertString_string]⟩
      · refine ⟨?_, ?_⟩
        · intro f hf
          simp only [firstInvalidField, List.find?, ht, hx, hu2, Option.some.injEq] at hf
          subst hf
          simp [collectStrings, ht, hx, hu1, assertString_string]
        · intro hf
          simp [firstInvalidField, List.find?, ht, hx, hu2] at hf
    · refine ⟨?_, ?_⟩
      · intro f hf
        simp only [firstInvalidField, List.find?, ht, hx2, Option.some.injEq] at hf
        subst hf
        simp [collectStrings, ht, hx1, assertString_string]
      · intro hf
        simp [firstInvalidField, List.find?, ht, hx2] at hf
  · refine ⟨?_, ?_⟩
    · intro f hf
      simp only [firstInvalidField, List.find?, ht2, Option.some.injEq] at hf
      subst hf
      simp [collectStrings, ht1]
    · intro hf
      simp [firstInvalidField, List.find?, ht2] at hf

/-- No field is reported exactly when title, text and url are all present as
strings. -/
lemma firstInvalidField_none_iff (c : Content) :
    firstInvalidField c = none
      ↔ ∀ f ∈ ["title", "text", "url"], ∃ s : String, c f = some (JsonValue.string s) := by
  constructor
  · intro h
    obtain ⟨t, x, u, ht, hx, hu, _⟩ := (collectStrings_fields c).2 h
    intro f hf
    simp only [List.mem_cons, List.mem_singleton, List.not_mem_nil, or_false] at hf
    rcases hf with rfl | rfl | rfl
    · exact ⟨t, ht⟩
    · exact ⟨x, hx⟩
    · exact ⟨u, hu⟩
  · intro h
    obtain ⟨t, ht⟩ := h "title" (by simp)
    obtain ⟨x, hx⟩ := h "text" (by simp)
    obtain ⟨u, hu⟩ := h "url" (by simp)
    simp [firstInvalidField, List.find?, ht, hx, hu]

/-- C17 (claim as stated fails): `CreateBanner` begins its transaction before
it looks at the content, so with a title that is not a string and a failing
`db.Begin` it returns the error of the store and no `InvalidTypeError`. -/
theorem create_with_failed_begin_example :
    firstInvalidField badContent = some "title"
      ∧ (CreateBanner (faultAt 0) sampleStore ⟨badContent, 1, true, [1, 2]⟩).result
          = .error (WriteError.store (GoError.other "deadlock detected")) := by
  constructor
  · decide
  · rfl

/-- C17 (amended): `UpdateBannerByID`, and `CreateBanner` once its transaction
has been begun, return an `InvalidTypeError` exactly when one of title, text,
url is absent from the content or is not a string; the error names the first
such field in that order, with the message "invalid type for parameter: "
followed by the field; no statement is sent then and the store is unchanged;
when the three are strings, the statement sent carries exactly those strings.
When `db.Begin` fails, `CreateBanner` returns that error and sends nothing. -/
theorem content_validation (faults : Nat → Option GoError) (db : Store) (id : Int)
    (content : Content) (FeatureId : Int) (IsActive : Bool) (TagIds : List Int) :
    (firstInvalidField content = none
        ↔ ∀ f ∈ ["title", "text", "url"], ∃ s : String, content f = some (JsonValue.string s))
      ∧ ((∃ e : InvalidTypeError,
            (UpdateBannerByID faults db id content).err = some (WriteError.invalidType e))
          ↔ firstInvalidField content ≠ none)
      ∧ (∀ f : String, firstInvalidField content = some f →
          (UpdateBannerByID faults db id content).err = some (WriteError.invalidType ⟨f⟩)
          ∧ InvalidTypeError.Error ⟨f⟩ = "invalid type for parameter: " ++ f
          ∧ (UpdateBannerByID faults db id content).issued = []
          ∧ (UpdateBannerByID faults db id content).committed = db)
      ∧ (firstInvalidField content = none →
          ∃ t x u : String, content "title" = some (JsonValue.string t)
            ∧ content "text" = some (JsonValue.string x)
            ∧ content "url" = some (JsonValue.string u)
            ∧ (UpdateBannerByID faults db id content).issued = [Stmt.UpdateBannerByID t x u id])
      ∧ (faults 0 = none →
          ((∃ e : InvalidTypeError,
              (CreateBanner faults db ⟨content, FeatureId, IsActive, TagIds⟩).result
                = .error (WriteError.invalidType e))
            ↔ firstInvalidField content ≠ none)
          ∧ (∀ f : String, firstInvalidField content = some f →
              (CreateBanner faults db ⟨content, FeatureId, IsActive, TagIds⟩).result
                = .error (WriteError.invalidType ⟨f⟩)
              ∧ (CreateBanner faults db ⟨content, FeatureId, IsActive, TagIds⟩).issued = []
              ∧ (CreateBanner faults db ⟨content, FeatureId, IsActive, TagIds⟩).committed = db)
          ∧ (firstInvalidField content = none →
              ∃ t x u : String, content "title" = some (JsonValue.string t)
                ∧ content "text" = some (JsonValue.string x)
                ∧ content "url" = some (JsonValue.string u)
                ∧ (CreateBanner faults db ⟨content, FeatureId, IsActive, TagIds⟩).issued.head?
                    = some (Stmt.CreateBanner FeatureId t x u IsActive)))
      ∧ (∀ err : GoError, faults 0 = some err →
          (CreateBanner faults db ⟨content, FeatureId, IsActive, TagIds⟩).result
            = .error (WriteError.store err)
          ∧ (CreateBanner faults db ⟨content, FeatureId, IsActive, TagIds⟩).issued = []) := by
  obtain ⟨hbad, hgood⟩ := collectStrings_fields content
  have hupd_bad : ∀ f : String, firstInvalidField content = some f →
      UpdateBannerByID faults db id content = ⟨some (WriteError.invalidType ⟨f⟩), db, []⟩ := by
    intro f hf
    simp [UpdateBannerByID, hbad f hf]
  have hupd_good : firstInvalidField content = none →
      ∃ t x u : String, content "title" = some (JsonValue.string t)
        ∧ content "text" = some (JsonValue.string x)
        ∧ content "url" = some (JsonValue.string u)
        ∧ (UpdateBannerByID faults db id content).issued = [Stmt.UpdateBannerByID t x u id]
        ∧ ∀ e : InvalidTypeError,
            (UpdateBannerByID faults db id content).err ≠ some (WriteError.invalidType e) := by
    intro hf
    obtain ⟨t, x, u, ht, hx, hu, hcol⟩ := hgood hf
    refine ⟨t, x, u, ht, hx, hu, ?_, ?_⟩
    · simp only [UpdateBannerByID, hcol]
      cases faults 0 <;> simp [valsGet, List.lookup]
    · intro e
      simp only [UpdateBannerByID, hcol]
      cases faults 0 <;> simp
  have hcre_bad : faults 0 = none → ∀ f : String, firstInvalidField content = some f →
      (CreateBanner faults db ⟨content, FeatureId, IsActive, TagIds⟩).result
          = .error (WriteError.invalidType ⟨f⟩)
        ∧ (CreateBanner faults db ⟨content, FeatureId, IsActive, TagIds⟩).issued = []
        ∧ (CreateBanner faults db ⟨content, FeatureId, IsActive, TagIds⟩).committed = db := by
    intro h0 f hf
    simp [CreateBanner, h0, hbad f hf]
  have hcre_good : faults 0 = none → firstInvalidField content = none →
      ∃ t x u : String, content "title" = some (JsonValue.string t)
        ∧ content "text" = some (JsonValue.string x)
        ∧ content "url" = some (JsonValue.string u)
        ∧ (CreateBanner faults db ⟨content, FeatureId, IsActive, TagIds⟩).issued.head?
            = some (Stmt.CreateBanner FeatureId t x u IsActive)
        ∧ ∀ e : InvalidTypeError,
            (CreateBanner faults db ⟨content, FeatureId, IsActive, TagIds⟩).result
              ≠ .error (WriteError.invalidType e) := by
    intro h0 hf
    obtain ⟨t, x, u, ht, hx, hu, hcol⟩ := hgood hf
    have hshape : ∃ (res : Except WriteError Int) (st : Store) (rest : List Stmt),
        CreateBanner faults db ⟨content, FeatureId, IsActive, TagIds⟩
            = ⟨res, st, Stmt.CreateBanner FeatureId t x u IsActive :: rest⟩
          ∧ ∀ e : InvalidTypeError, res ≠ .error (WriteError.invalidType e) := by
      simp only [CreateBanner, h0, hcol]
      have hv1 : valsGet [("title", t), ("text", x), ("url", u)] "title" = t := by
        simp [valsGet, List.lookup]
      have hv2 : valsGet [("title", t), ("text", x), ("url", u)] "text" = x := by
        simp [valsGet, List.lookup]
      have hv3 : valsGet [("title", t), ("text", x), ("url", u)] "url" = u := by
        simp [valsGet, List.lookup]
      rw [hv1, hv2, hv3]
      cases h1 : faults 1 with
      | some err => exact ⟨_, _, _, rfl, by simp⟩
      | none =>
        simp only
        rcases hex : execAll faults 2
            (Stmt.apply db (Stmt.CreateBanner FeatureId t x u IsActive))
            (TagIds.map (fun tagID => Stmt.CreateTag tagID (nextBannerID db)))
          with ⟨e, w, o, sent⟩
        cases e with
        | some err => exact ⟨_, _, _, rfl, by simp⟩
        | none =>
          simp only
          cases hc : faults o with
          | some err => exact ⟨_, _, _, rfl, by simp⟩
          | none => exact ⟨_, _, _, rfl, by simp⟩
    obtain ⟨res, st, rest, heq, hres⟩ := hshape
    refine ⟨t, x, u, ht, hx, hu, ?_, ?_⟩
    · rw [heq]
      rfl
    · intro e
      rw [heq]
      exact hres e
  refine ⟨firstInvalidField_none_iff content, ?_, ?_, ?_, ?_, ?_⟩
  · constructor
    · rintro ⟨e, he⟩ hnone
      obtain ⟨_, _, _, _, _, _, _, hne⟩ := hupd_good hnone
      exact hne e he
    · intro hne
      cases hf : firstInvalidField content with
      | none => exact absurd hf hne
      | some f => exact ⟨⟨f⟩, by rw [hupd_bad f hf]⟩
  · intro f hf
    rw [hupd_bad f hf]
    exact ⟨rfl, rfl, rfl, rfl⟩
  · intro hf
    obtain ⟨t, x, u, ht, hx, hu, hiss, _⟩ := hupd_good hf
    exact ⟨t, x, u, ht, hx, hu, hiss⟩
  · intro h0
    refine ⟨?_, hcre_bad h0, ?_⟩
    · constructor
      · rintro ⟨e, he⟩ hnone
        obtain ⟨_, _, _, _, _, _, _, hne⟩ := hcre_good h0 hnone
        exact hne e he
      · intro hne
        cases hf : firstInvalidField content with
        | none => exact absurd hf hne
        | some f => exact ⟨⟨f⟩, (hcre_bad h0 f hf).1⟩
    · intro hf
      obtain ⟨t, x, u, ht, hx, hu, hiss, _⟩ := hcre_good h0 hf
      exact ⟨t, x, u, ht, hx, hu, hiss⟩
  · intro err h0
    simp [CreateBanner, h0]

/-- C17 (amended) at a concrete input: a numeric title is reported with the
message for `title` by both functions and nothing is sent to the store. -/
theorem content_validation_witness :
    (UpdateBannerByID noFaults sampleStore 7 badContent).err
        = some (WriteError.invalidType ⟨"title"⟩)
      ∧ InvalidTypeError.Error ⟨"title"⟩ = "invalid type for parameter: " ++ "title"
      ∧ (UpdateBannerByID noFaults sampleStore 7 badContent).issued = []
      ∧ (CreateBanner noFaults sampleStore ⟨badContent, 1, true, [1, 2]⟩).result
          = .error (WriteError.invalidType ⟨"title"⟩)
      ∧ (CreateBanner noFaults sampleStore ⟨badContent, 1, true, [1, 2]⟩).issued = [] :=
  ⟨((content_validation noFaults sampleStore 7 badContent 1 true [1, 2]).2.2.1 "title"
      (by decide)).1,
    ((content_validation noFaults sampleStore 7 badContent 1 true [1, 2]).2.2.1 "title"
      (by decide)).2.1,
    ((content_validation noFaults sampleStore 7 badContent 1 true [1, 2]).2.2.1 "title"
      (by decide)).2.2.1,
    (((content_validation noFaults sampleStore 7 badContent 1 true [1, 2]).2.2.2.2.1 rfl).2.1
      "title" (by decide)).1,
    (((content_validation noFaults sampleStore 7 badContent 1 true [1, 2]).2.2.2.2.1 rfl).2.1
      "title" (by decide)).2.1⟩

/-! ## Cache keys -/

/-- The character of a decimal digit has the digit as its offset from '0' and is
neither 't' nor '-'. -/
lemma digitChar_spec : ∀ d : Nat, d < 10 →
    (Nat.digitChar d).toNat - 48 = d ∧ Nat.digitChar d ≠ 't' ∧ Nat.digitChar d ≠ '-' := by
  decide

/-- Every character produced by the decimal printing loop is a digit, unless it
was in the accumulator. -/
lemma toDigitsCore_mem (fuel : Nat) : ∀ (n : Nat) (ds : List Char) (c : Char),
    c ∈ Nat.toDigitsCore 10 fuel n ds → c ∈ ds ∨ (c ≠ 't' ∧ c ≠ '-') := by
  induction fuel with
  | zero =>
    intro n ds c h
    simp only [Nat.toDigitsCore] at h
    exact Or.inl h
  | succ fuel ih =>
    intro n ds c h
    have hd := digitChar_spec (n % 10) (Nat.mod_lt _ (by decide))
    simp only [Nat.toDigitsCore] at h
    split_ifs at h with h0
    · rcases List.mem_cons.mp h with h1 | h1
      · right; rw [h1]; exact hd.2
      · exact Or.inl h1
    · rcases ih _ _ c h with h1 | h1
      · rcases List.mem_cons.mp h1 with h2 | h2
        · right; rw [h2]; exact hd.2
        · exact Or.inl h2
      · exact Or.inr h1

/-- Reading the printed digits back gives the number printed. -/
lemma toDigitsCore_val (fuel : Nat) : ∀ (n : Nat) (ds : List Char), n < fuel →
    List.foldl (fun acc (c : Char) => 10 * acc + (c.toNat - 48)) 0 (Nat.toDigitsCore 10 fuel n ds)
      = List.foldl (fun acc (c : Char) => 10 * acc + (c.toNat - 48)) n ds := by
  induction fuel with
  | zero => intro n ds h; omega
  | succ fuel ih =>
    intro n ds h
    have hd := (digitChar_spec (n % 10) (Nat.mod_lt _ (by decide))).1
    simp only [Nat.toDigitsCore]
    split_ifs with h0
    · simp only [List.foldl_cons, hd]
      congr 1
      omega
    · rw [ih (n / 10) _ (by omega)]
      simp only [List.foldl_cons, hd]
      congr 1
      omega

/-- Two naturals with the same decimal digits are equal. -/
lemma toDigits_inj (a b : Nat) (h : Nat.toDigits 10 a = Nat.toDigits 10 b) : a = b := by
  have ha := toDigitsCore_val (a + 1) a [] (by omega)
  have hb := toDigitsCore_val (b + 1) b [] (by omega)
  simp only [List.foldl_nil] at ha hb
  unfold Nat.toDigits at h
  rw [← ha, ← hb, h]

/-- The decimal digits of a natural contain neither 't' nor '-'. -/
lemma toDigits_chars (n : Nat) : ∀ c ∈ Nat.toDigits 10 n, c ≠ 't' ∧ c ≠ '-' := by
  intro c hc
  rcases toDigitsCore_mem _ _ _ c hc with h | h
  · simp at h
  · exact h

/-- The text printed by `%d` for an integer contains no 't'. -/
lemma int_toString_chars (i : Int) : ∀ c ∈ (toString i).data, c ≠ 't' := by
  intro c hc
  cases i with
  | ofNat n =>
    have h : (toString (Int.ofNat n)).data = Nat.toDigits 10 n := rfl
    rw [h] at hc
    exact (toDigits_chars n c hc).1
  | negSucc n =>
    have h : (toString (Int.negSucc n)).data = '-' :: Nat.toDigits 10 (n + 1) := rfl
    rw [h] at hc
    rcases List.mem_cons.mp hc with h1 | h1
    · rw [h1]; decide
    · exact (toDigits_chars _ c h1).1

/-- Two integers printed alike by `%d` are equal. -/
lemma int_toString_inj (i j : Int) (h : (toString i).data = (toString j).data) : i = j := by
  cases i with
  | ofNat a =>
    cases j with
    | ofNat b =>
      have h1 : Nat.toDigits 10 a = Nat.toDigits 10 b := h
      rw [toDigits_inj a b h1]
    | negSucc b =>
      have h1 : Nat.toDigits 10 a = '-' :: Nat.toDigits 10 (b + 1) := h
      have h2 := (toDigits_chars a '-' (by rw [h1]; exact List.mem_cons_self _ _)).2
      exact absurd rfl h2
  | negSucc a =>
    cases j with
    | ofNat b =>
      have h1 : '-' :: Nat.toDigits 10 (a + 1) = Nat.toDigits 10 b := h
      have h2 := (toDigits_chars b '-' (by rw [← h1]; exact List.mem_cons_self _ _)).2
      exact absurd rfl h2
    | negSucc b =>
      have h1 : '-' :: Nat.toDigits 10 (a + 1) = '-' :: Nat.toDigits 10 (b + 1) := h
      have h2 := toDigits_inj _ _ (List.cons.inj h1).2
      have h3 : a = b := by omega
      rw [h3]

/-- Two texts without 't', each followed by 't' and a rest, that give the same
whole are equal, and so are the rests. -/
lemma split_at_marker : ∀ (F1 F2 X1 X2 : List Char), (∀ c ∈ F1, c ≠ 't') → (∀ c ∈ F2, c ≠ 't') →
    F1 ++ 't' :: X1 = F2 ++ 't' :: X2 → F1 = F2 ∧ X1 = X2 := by
  intro F1
  induction F1 with
  | nil =>
    intro F2 X1 X2 _ h2 h
    cases F2 with
    | nil =>
      simp only [List.nil_append, List.cons.injEq, true_and] at h
      exact ⟨rfl, h⟩
    | cons c F2 =>
      simp only [List.nil_append, List.cons_append, List.cons.injEq] at h
      exact absurd h.1.symm (h2 c (List.mem_cons_self _ _))
  | cons c F1 ih =>
    intro F2 X1 X2 h1 h2 h
    cases F2 with
    | nil =>
      simp only [List.nil_append, List.cons_append, List.cons.injEq] at h
      exact absurd h.1 (h1 c (List.mem_cons_self _ _))
    | cons d F2 =>
      simp only [List.cons_append, List.cons.injEq] at h
      obtain ⟨e1, e2⟩ := ih F2 X1 X2 (fun x hx => h1 x (List.mem_cons_of_mem _ hx))
        (fun x hx => h2 x (List.mem_cons_of_mem _ hx)) h.2
      exact ⟨by rw [h.1, e1], e2⟩

/-- The characters of a cache key, split at the 't' of `tag_id`. -/
lemma cacheKey_data (f t : Int) :
    (cacheKey f t).data
      = "feature_id:".data ++ (((toString f).data ++ ['-']) ++ 't' :: ("ag_id:".data ++ (toString t).data)) := by
  simp [cacheKey, String.data_append]

/-- C20: the cache keys of two integer pairs, negative values included, are
equal only if the pairs are equal (and then they are); so in a cache that is
a map, an entry set under the key of one pair is a miss under the key of any
other pair. -/
theorem cacheKey_injective (f1 t1 f2 t2 : Int) :
    (cacheKey f1 t1 = cacheKey f2 t2 ↔ f1 = f2 ∧ t1 = t2)
      ∧ ((f1, t1) ≠ (f2, t2) →
          ∀ (store : Int → Int → Except GoError Banner) (jsonMarshal : Banner → Bytes)
            (jsonUnmarshal : Bytes → Except GoError Banner) (ttl : Nat) (value : Bytes),
            ((mapDeps store jsonMarshal jsonUnmarshal ttl).rdbGet
                ((mapDeps store jsonMarshal jsonUnmarshal ttl).rdbSet coldCache
                  (cacheKey f1 t1) value ttl).2
                (cacheKey f2 t2)).1 = .error GoError.redisNil) := by
  have hinj : cacheKey f1 t1 = cacheKey f2 t2 → f1 = f2 ∧ t1 = t2 := by
    intro h
    have hd := congrArg String.data h
    rw [cacheKey_data, cacheKey_data] at hd
    have h1 := List.append_cancel_left hd
    have hF : ∀ (i : Int), ∀ c ∈ (toString i).data ++ ['-'], c ≠ 't' := by
      intro i c hc
      rcases List.mem_append.mp hc with h2 | h2
      · exact int_toString_chars i c h2
      · simp only [List.mem_singleton] at h2
        rw [h2]; decide
    obtain ⟨e1, e2⟩ := split_at_marker _ _ _ _ (hF f1) (hF f2) h1
    have e3 := List.append_cancel_right e1
    have e4 := List.append_cancel_left e2
    exact ⟨int_toString_inj f1 f2 e3, int_toString_inj t1 t2 e4⟩
  refine ⟨⟨hinj, ?_⟩, ?_⟩
  · rintro ⟨rfl, rfl⟩
    rfl
  · intro hne store jsonMarshal jsonUnmarshal ttl value
    have hkey : cacheKey f2 t2 ≠ cacheKey f1 t1 := by
      intro h
      obtain ⟨h1, h2⟩ := hinj h.symm
      exact hne (by rw [h1, h2])
    simp [mapDeps, coldCache, hkey]

/-- C20 at a concrete input: the pairs (1, -2) and (1, 2) have different
keys, and an entry set for the first is a miss for the second. -/
theorem cacheKey_injective_witness :
    ((mapDeps (fun _ _ => .ok newBanner) sampleMarshal sampleUnmarshal 300).rdbGet
        ((mapDeps (fun _ _ => .ok newBanner) sampleMarshal sampleUnmarshal 300).rdbSet coldCache
          (cacheKey 1 (-2)) [1] 300).2
        (cacheKey 1 2)).1 = .error GoError.redisNil :=
  (cacheKey_injective 1 (-2) 1 2).2 (by decide) (fun _ _ => .ok newBanner) sampleMarshal
    sampleUnmarshal 300 [1]

/-! ## The buffer reset -/

/-- While the capacity of the buffer is at least a non-negative
`BannerBufferLength`, the only panic a step can raise is the one of closing
`done` twice. -/
lemma step_crash_kind (config : Config) (growslice : Nat → Nat) (s s1 : BannerService)
    (e : Event) (hn : 0 ≤ config.BannerBufferLength)
    (hcap : config.BannerBufferLength.toNat ≤ s.ids.cap)
    (h : step config growslice s e = some s1) :
    s1.crashed = none ∨ s1.crashed = some ⟨"close of closed channel"⟩ := by
  cases e with
  | enqueue id =>
    simp only [step] at h
    split_ifs at h with h1 h2 h3
    · cases h
      left
      simpa using h1
    · cases h
      left
      simpa using h1
  | stop =>
    simp only [step] at h
    split_ifs at h with h1
    rcases signalShutdown_cases s with h2 | h2
    · rw [h2] at h
      cases h
      left
      simpa using h1
    · rw [h2] at h
      cases h
      exact Or.inr rfl
  | deliver =>
    simp only [step] at h
    split_ifs at h with h1
    cases hch : s.deleteChan with
    | nil => simp [hch] at h
    | cons id rest =>
      simp only [hch] at h
      cases h
      left
      simp only [not_or] at h1
      simpa using h1.1
  | shutdown repoErr =>
    simp only [step] at h
    split_ifs at h with h1 h2
    · cases h
      left
      simp only [not_or] at h1
      simpa using h1.1
    · cases h
      left
      simp only [not_or] at h1
      simpa using h1.1
  | tick repoErr =>
    simp only [step] at h
    split_ifs at h with h1 h2
    · cases h
      left
      simp only [not_or] at h1
      simpa using h1.1
    · simp only [not_or] at h1
      have hc : s.crashed = none := by simpa using h1.1
      cases repoErr with
      | some err =>
        simp only [flush, h2, if_false] at h
        cases h
        exact Or.inl hc
      | none =>
        simp only [flush, h2, if_false, Slice.resetTo_ok s.ids _ hn hcap] at h
        cases h
        exact Or.inl hc

/-- Along every run that starts without a panic and with a buffer capacity of
at least a non-negative `BannerBufferLength`, the only panic is the one of
closing `done` twice. -/
lemma run_crash_kind (config : Config) (growslice : Nat → Nat) (es : List Event) :
    ∀ (s s1 : BannerService), 0 ≤ config.BannerBufferLength →
      s.deleteChan.length ≤ config.BannerBufferLength.toNat →
      config.BannerBufferLength.toNat ≤ s.ids.cap →
      (s.crashed = none ∨ s.crashed = some ⟨"close of closed channel"⟩) →
      run config growslice s es = some s1 →
      s1.crashed = none ∨ s1.crashed = some ⟨"close of closed channel"⟩ := by
  induction es with
  | nil =>
    intro s s1 _ _ _ hc h
    simp only [run] at h
    cases h
    exact hc
  | cons e es ih =>
    intro s s1 hn hq hcap _ h
    simp only [run] at h
    cases hstep : step config growslice s e with
    | none => simp [hstep] at h
    | some sm =>
      simp only [hstep] at h
      obtain ⟨hq1, hcap1⟩ := step_bounds config growslice s sm e hq hcap hstep
      exact ih sm s1 hn hq1 hcap1 (step_crash_kind config growslice s sm e hn hcap hstep) h

/-- C21: for every non-negative `BannerBufferLength`, `NewService` starts the
loop with an empty buffer of exactly that capacity, `append` never lowers the
capacity, and in every state the loop reaches the capacity is at least
`BannerBufferLength`; so the reslice `ids[:0:BannerBufferLength]` is within
bounds there and yields an empty buffer of capacity `BannerBufferLength`, a
tick whose flush succeeds leaves exactly that buffer and no panic, and the
only panic a run can end in is the one of closing `done` twice. -/
theorem reset_never_faults (config : Config) (growslice : Nat → Nat)
    (hn : 0 ≤ config.BannerBufferLength) :
    ∃ s0 : BannerService, NewService config = .ok s0
      ∧ s0.ids = ⟨[], config.BannerBufferLength.toNat⟩
      ∧ (∀ (sl : Slice) (x : Int), sl.cap ≤ (sl.append growslice x).cap)
      ∧ ∀ (es : List Event) (s : BannerService), run config growslice s0 es = some s →
          config.BannerBufferLength.toNat ≤ s.ids.cap
          ∧ s.ids.resetTo config.BannerBufferLength
              = .ok ⟨[], config.BannerBufferLength.toNat⟩
          ∧ (s.crashed = none ∨ s.crashed = some ⟨"close of closed channel"⟩)
          ∧ ∀ s1 : BannerService, s.ids.elems ≠ [] →
              step config growslice s (Event.tick none) = some s1 →
              s1.ids = ⟨[], config.BannerBufferLength.toNat⟩ ∧ s1.crashed = none := by
  have hnew : NewService config
      = .ok ⟨[], false, ⟨[], config.BannerBufferLength.toNat⟩, false, none, []⟩ := by
    have h1 : ¬ config.BannerBufferLength < 0 := by omega
    simp [NewService, makeSlice, h1]
  refine ⟨_, hnew, rfl, fun sl x => Slice.append_cap growslice sl x, ?_⟩
  intro es s hrun
  obtain ⟨_, _, hcap⟩ := reachable_bounds config growslice _ s es hnew hrun
  have hreset := Slice.resetTo_ok s.ids _ hn hcap
  refine ⟨hcap, hreset, ?_, ?_⟩
  · exact run_crash_kind config growslice es _ s hn (by simp) (le_refl _) (Or.inl rfl) hrun
  · intro s1 hne hstep
    have hlen : s.ids.elems.length ≠ 0 := fun h => hne (List.length_eq_zero.mp h)
    simp only [step] at hstep
    split_ifs at hstep with h1
    simp only [not_or] at h1
    have hc : s.crashed = none := by simpa using h1.1
    simp only [flush, hlen, if_false, hreset] at hstep
    cases hstep
    exact ⟨rfl, hc⟩

/-- C21 at a concrete input: with length 5 and a capacity that doubles, six
ids delivered without a successful flush leave a buffer of capacity 10; the
reslice to 5 is within bounds and gives the empty buffer of capacity 5. -/
theorem reset_never_faults_witness :
    (⟨[1, 2, 3, 4, 5, 6], 10⟩ : Slice).resetTo 5 = .ok ⟨[], 5⟩ := by
  obtain ⟨s0, h0, _, _, h⟩ := reset_never_faults defaultConfig doubling (by decide)
  have h1 : NewService defaultConfig = .ok freshService := rfl
  rw [h1] at h0
  cases h0
  exact (h [Event.enqueue 1, Event.enqueue 2, Event.enqueue 3, Event.enqueue 4,
      Event.enqueue 5, Event.deliver, Event.deliver, Event.deliver, Event.deliver,
      Event.deliver, Event.enqueue 6, Event.deliver]
    ⟨[], false, ⟨[1, 2, 3, 4, 5, 6], 10⟩, false, none, []⟩ rfl).2.1

end banner
